import Mathlib

/-!
Shallow embedding of the lazy-loading pipeline of
src/src/js/modules/LazyLoading.js (class LazyLoading).

Modelling conventions:
* A DOM element is a record of the attributes and properties the module
  reads or writes.  Attributes backed by `dataset` are `Option String`
  (`none` = attribute absent); JS truthiness treats both `undefined` and
  the empty string as falsy, captured by `truthy`.
* The document is an association list `List (Nat × Elem)` from element
  ids to element records (document order = list order).  DOM nodes are
  mutated through the store, which models JS reference semantics.
* The controller state `St` carries the observer connection, the set of
  observed targets, the three rosters (images, backgrounds, content),
  the `loadAttempts` map (association list with JS `Map` get/set
  semantics), the pending `setTimeout` retry timers as (fireTime, id)
  pairs, the dispatched custom events, a log of `loadElement`
  invocations (trace instrumentation), and the current time.
* Asynchronous completions (image decode, fetch) are resolved by a
  boolean network oracle passed to each load; a completion is applied at
  the moment of the call (decode/fetch latency is not modelled).
* `fetch` fragment HTML is not modelled textually; the elements a
  fragment injects into a container are supplied by an oracle
  `inj : Nat → List Nat` naming ids already present in the store.
* Presentation-only effects are omitted: the fade-in opacity/transition
  styles of onElementLoaded, console logging, and setupNativeLoading
  (which only counts and logs).
* Calling `observer.observe` while `this.observer` is null throws in JS;
  operations that may do so return a Bool flag (false = the iteration
  aborted with a throw at that point), mirroring how the exception
  propagates out of a forEach/then callback.
-/

namespace LazyVerify

/-- A DOM element as seen by the LazyLoading module. -/
structure Elem where
  tag : String := ""
  src : Option String := none
  srcset : Option String := none
  sizes : Option String := none
  dataSrc : Option String := none
  dataSrcset : Option String := none
  dataSizes : Option String := none
  dataBg : Option String := none
  dataLazy : Option String := none
  dataPlaceholder : Option String := none
  loadingAttr : Option String := none
  bgImage : Option String := none
  complete : Bool := false
  naturalWidth : Nat := 0
  classes : List String := []
deriving Repr, DecidableEq

/-- Custom events dispatched by the module. -/
inductive Ev where
  | lazyLoaded (id : Nat)
  | lazyError (id : Nat) (attempts : Nat)
deriving Repr, DecidableEq

/-- State owned by one LazyLoading instance, plus the document. -/
structure St where
  doc : List (Nat × Elem) := []
  observerConn : Bool := false
  observed : List Nat := []
  images : List Nat := []
  backgrounds : List Nat := []
  content : List Nat := []
  loadAttempts : List (Option String × Nat) := []
  timers : List (Nat × Nat) := []
  events : List Ev := []
  invLog : List (Nat × Nat) := []
  now : Nat := 0
deriving Repr, DecidableEq

/-- Configuration options (constructor defaults of LazyLoading).
rootMargin and threshold are only handed to the observer primitive and
never read by the pipeline logic, so they are not carried here; the
selector options are fixed to their defaults and interpreted
structurally by the matcher functions below. -/
structure Options where
  loadingClass : String := "lazy-loading"
  loadedClass : String := "lazy-loaded"
  errorClass : String := "lazy-error"
  fadeInDuration : Nat := 300
  enableNativeLoading : Bool := true
  retryAttempts : Nat := 2
  retryDelay : Nat := 1000
deriving Repr, DecidableEq

def defaultOptions : Options := {}

/-- JS truthiness for a possibly-absent string value. -/
def truthy : Option String → Bool
  | none => false
  | some s => !(s == "")

/-- JS short-circuit a or-or b over string values. -/
def jsOr (a b : Option String) : Option String := if truthy a then a else b

def defaultElem : Elem := {}

/-- Dereference an element id in the store. -/
def findElem (st : St) (i : Nat) : Elem :=
  match st.doc.find? (fun p => p.1 == i) with
  | some p => p.2
  | none => defaultElem

/-- Write back a mutated element. -/
def setElem (st : St) (i : Nat) (e : Elem) : St :=
  { st with doc := st.doc.map (fun p => if p.1 == i then (i, e) else p) }

def updateElem (st : St) (i : Nat) (f : Elem → Elem) : St :=
  setElem st i (f (findElem st i))

/-- JS Map.get: none when the key is absent. -/
def mapGet (m : List (Option String × Nat)) (k : Option String) : Option Nat :=
  match m.find? (fun p => p.1 == k) with
  | some p => some p.2
  | none => none

/-- JS Map.set: replace in place, or append preserving insertion order. -/
def mapSet (m : List (Option String × Nat)) (k : Option String) (v : Nat) :
    List (Option String × Nat) :=
  if (m.find? (fun p => p.1 == k)).isSome then
    m.map (fun p => if p.1 == k then (k, v) else p)
  else m ++ [(k, v)]

/-- classList.add: no duplicates. -/
def addClass (c : String) (e : Elem) : Elem :=
  if e.classes.contains c then e else { e with classes := e.classes ++ [c] }

/-- classList.remove. -/
def removeClass (c : String) (e : Elem) : Elem :=
  { e with classes := e.classes.filter (fun x => !(x == c)) }

/-- Default imageSelector: img[loading=lazy], img[data-src]
(attribute selectors match mere presence, empty value included). -/
def matchesImageSelector (e : Elem) : Bool :=
  e.tag == "IMG" && (e.loadingAttr == some "lazy" || e.dataSrc.isSome)

/-- Default backgroundSelector: [data-bg]. -/
def matchesBackgroundSelector (e : Elem) : Bool := e.dataBg.isSome

/-- Default contentSelector: [data-lazy]. -/
def matchesContentSelector (e : Elem) : Bool := e.dataLazy.isSome

def matchesAnyLazySelector (e : Elem) : Bool :=
  matchesImageSelector e || matchesBackgroundSelector e || matchesContentSelector e

/-- Selector used by destroy and getStats: .loading, .loaded, .error classes. -/
def matchesMarkerSelector (o : Options) (e : Elem) : Bool :=
  e.classes.contains o.loadingClass || e.classes.contains o.loadedClass ||
    e.classes.contains o.errorClass

/-- The filter applied to images inside collectElements. -/
def imageFilter (o : Options) (e : Elem) : Bool :=
  if e.complete && e.naturalWidth > 0 then false
  else if e.loadingAttr == some "lazy" && !(truthy e.dataSrc) && o.enableNativeLoading then
    false
  else true

/-- collectElements: recompute the three rosters from the document. -/
def collectElements (o : Options) (st : St) : St :=
  { st with
    images :=
      (st.doc.filter (fun p => matchesImageSelector p.2 && imageFilter o p.2)).map (fun p => p.1)
    backgrounds :=
      (st.doc.filter (fun p => matchesBackgroundSelector p.2)).map (fun p => p.1)
    content :=
      (st.doc.filter (fun p => matchesContentSelector p.2)).map (fun p => p.1) }

/-- observer.observe. -/
def observe (st : St) (i : Nat) : St :=
  if st.observed.contains i then st else { st with observed := st.observed ++ [i] }

/-- observer.unobserve. -/
def unobserve (st : St) (i : Nat) : St :=
  { st with observed := st.observed.filter (fun x => !(x == i)) }

/-- One step of the observeElements forEach: observe (throwing when the
observer is null, which aborts the iteration) then add the loading class. -/
def obsStep (o : Options) (acc : St × Bool) (i : Nat) : St × Bool :=
  if acc.2 then
    if acc.1.observerConn then
      (updateElem (observe acc.1 i) i (addClass o.loadingClass), true)
    else (acc.1, false)
  else acc

/-- observeElements: observe every roster element and add the loading
class.  If the observer is null the observe call throws, aborting the
forEach; the Bool is false in that case. -/
def observeElements (o : Options) (st : St) : St × Bool :=
  (st.images ++ st.backgrounds ++ st.content).foldl (obsStep o) (st, true)

/-- One step of the processNewContent forEach over the elements found
inside a freshly injected fragment. -/
def pncStep (o : Options) (acc : St × Bool) (i : Nat) : St × Bool :=
  if acc.2 then
    let e := findElem acc.1 i
    if matchesAnyLazySelector e && !(e.classes.contains o.loadingClass) then
      if acc.1.observerConn then
        (updateElem (observe acc.1 i) i (addClass o.loadingClass), true)
      else (acc.1, false)
    else acc
  else acc

/-- processNewContent: re-classify elements found inside a freshly
injected fragment (supplied as the id list), observing and marking the
ones that match a selector and do not yet carry the loading class. -/
def processNewContent (o : Options) (st : St) (ids : List Nat) : St × Bool :=
  ids.foldl (pncStep o) (st, true)

/-- onElementLoaded: swap loading for loaded and dispatch lazyLoaded.
The transient fade-in styling is presentation and not modelled. -/
def onElementLoaded (o : Options) (st : St) (i : Nat) : St :=
  let st := updateElem st i (fun e => addClass o.loadedClass (removeClass o.loadingClass e))
  { st with events := st.events ++ [Ev.lazyLoaded i] }

/-- The key of the loadAttempts map:
element.src or-else element.dataset.src or-else element.dataset.bg. -/
def attemptKey (e : Elem) : Option String := jsOr e.src (jsOr e.dataSrc e.dataBg)

/-- handleLoadError: below the retry bound, bump the counter and
schedule another loadElement after retryDelay * (attempts + 1);
otherwise mark the element errored, substitute the placeholder when one
is configured on an image, and dispatch lazyError with attempts + 1. -/
def handleLoadError (o : Options) (st : St) (i : Nat) : St :=
  let e := findElem st i
  let k := attemptKey e
  let attempts := (mapGet st.loadAttempts k).getD 0
  if attempts < o.retryAttempts then
    { st with
      loadAttempts := mapSet st.loadAttempts k (attempts + 1)
      timers := st.timers ++ [(st.now + o.retryDelay * (attempts + 1), i)] }
  else
    let st := updateElem st i (fun e2 => addClass o.errorClass (removeClass o.loadingClass e2))
    let st :=
      if e.tag == "IMG" && truthy e.dataPlaceholder then
        updateElem st i (fun e2 => { e2 with src := e.dataPlaceholder })
      else st
    { st with events := st.events ++ [Ev.lazyError i (attempts + 1)] }

/-- The payload-copy step of a successful image decode, as a named
function: each truthy pending attribute (data-src, data-srcset,
data-sizes) is copied onto its live counterpart and deleted, in that
order.  This is exactly the success branch of loadImage. -/
def resolveImg (e : Elem) : Elem :=
  let e1 := if truthy e.dataSrc then { e with src := e.dataSrc, dataSrc := none } else e
  let e2 :=
    if truthy e1.dataSrcset then { e1 with srcset := e1.dataSrcset, dataSrcset := none }
    else e1
  if truthy e2.dataSizes then { e2 with sizes := e2.dataSizes, dataSizes := none } else e2

/-- loadImage.  Returns the new state and whether the promise resolved.
A missing src rejects without touching state (the error handler is only
reached through the caller); a decode failure runs handleLoadError and
rejects; success copies the pending payload onto the element, clears
it, and runs onElementLoaded. -/
def loadImage (o : Options) (net : Bool) (st : St) (i : Nat) : St × Bool :=
  let e := findElem st i
  let src := jsOr e.dataSrc e.src
  if !(truthy src) then (st, false)
  else if net then
    let e1 := if truthy e.dataSrc then { e with src := e.dataSrc, dataSrc := none } else e
    let e2 :=
      if truthy e1.dataSrcset then { e1 with srcset := e1.dataSrcset, dataSrcset := none }
      else e1
    let e3 :=
      if truthy e2.dataSizes then { e2 with sizes := e2.dataSizes, dataSizes := none } else e2
    (onElementLoaded o (setElem st i e3) i, true)
  else (handleLoadError o st i, false)

/-- loadBackground.  bgImage records the applied background URL (the
css url(...) wrapper is presentation). -/
def loadBackground (o : Options) (net : Bool) (st : St) (i : Nat) : St × Bool :=
  let e := findElem st i
  if !(truthy e.dataBg) then (st, false)
  else if net then
    let e1 := { e with bgImage := e.dataBg, dataBg := none }
    (onElementLoaded o (setElem st i e1) i, true)
  else (handleLoadError o st i, false)

/-- loadContent.  A falsy data-lazy URL resolves immediately as loaded;
a successful fetch clears data-lazy, re-classifies the injected
fragment (a throw inside the then-callback, e.g. observe on a null
observer, falls into the catch and runs handleLoadError), then runs
onElementLoaded; a failed fetch runs handleLoadError and rejects. -/
def loadContent (o : Options) (net : Bool) (inj : Nat → List Nat) (st : St) (i : Nat) :
    St × Bool :=
  let e := findElem st i
  if !(truthy e.dataLazy) then (onElementLoaded o st i, true)
  else if net then
    let st1 := setElem st i { e with dataLazy := none }
    let r := processNewContent o st1 (inj i)
    if r.2 then (onElementLoaded o r.1 i, true)
    else (handleLoadError o r.1 i, false)
  else (handleLoadError o st i, false)

/-- loadElement: dispatch by element kind; the catch block runs
handleLoadError on any rejection (in addition to the handler already
run inside the rejecting loader).  The invocation is logged. -/
def loadElement (o : Options) (net : Bool) (inj : Nat → List Nat) (st : St) (i : Nat) : St :=
  let st := { st with invLog := st.invLog ++ [(st.now, i)] }
  let e := findElem st i
  if e.tag == "IMG" then
    let r := loadImage o net st i
    if r.2 then r.1 else handleLoadError o r.1 i
  else if truthy e.dataBg then
    let r := loadBackground o net st i
    if r.2 then r.1 else handleLoadError o r.1 i
  else if truthy e.dataLazy then
    let r := loadContent o net inj st i
    if r.2 then r.1 else handleLoadError o r.1 i
  else st

/-- One IntersectionObserver record. -/
structure Entry where
  target : Nat
  isIntersecting : Bool
deriving Repr, DecidableEq

/-- One step of the handleIntersection forEach. -/
def hiStep (o : Options) (net : Nat → Bool) (inj : Nat → List Nat) (s : St) (en : Entry) : St :=
  if en.isIntersecting then unobserve (loadElement o (net en.target) inj s en.target) en.target
  else s

/-- handleIntersection: for each intersecting entry, load then unobserve. -/
def handleIntersection (o : Options) (net : Nat → Bool) (inj : Nat → List Nat)
    (st : St) (entries : List Entry) : St :=
  entries.foldl (hiStep o net inj) st

/-- Fallback steps: one direct loader call with the rejection swallowed. -/
def laiImgStep (o : Options) (net : Nat → Bool) (s : St) (i : Nat) : St :=
  (loadImage o (net i) s i).1

def laiBgStep (o : Options) (net : Nat → Bool) (s : St) (i : Nat) : St :=
  (loadBackground o (net i) s i).1

def laiContentStep (o : Options) (net : Nat → Bool) (inj : Nat → List Nat) (s : St) (i : Nat) :
    St :=
  (loadContent o (net i) inj s i).1

/-- loadAllImmediately: the no-IntersectionObserver fallback.  Collect,
then call the three loaders directly (rejections are swallowed by
catch of the mapped promises). -/
def loadAllImmediately (o : Options) (net : Nat → Bool) (inj : Nat → List Nat) (st : St) : St :=
  let st := collectElements o st
  let st := st.images.foldl (laiImgStep o net) st
  let st := st.backgrounds.foldl (laiBgStep o net) st
  st.content.foldl (laiContentStep o net inj) st

def setupObserver (st : St) : St := { st with observerConn := true, observed := [] }

/-- init.  ioSupported models the IntersectionObserver-in-window test.
The Bool is true when init returned without throwing. -/
def init (o : Options) (ioSupported : Bool) (net : Nat → Bool) (inj : Nat → List Nat)
    (st : St) : St × Bool :=
  if !ioSupported then (loadAllImmediately o net inj st, true)
  else observeElements o (collectElements o (setupObserver st))

/-- refresh: disconnect, re-collect, re-observe. -/
def refresh (o : Options) (st : St) : St × Bool :=
  let st := if st.observerConn then { st with observed := [] } else st
  observeElements o (collectElements o st)

def clearMarkers (o : Options) (e : Elem) : Elem :=
  { e with
    classes := e.classes.filter
      (fun c => !(c == o.loadingClass || c == o.loadedClass || c == o.errorClass)) }

/-- destroy: disconnect and drop the observer, strip the three marker
classes from every element the marker selector matches, release the
rosters and clear the attempt map. -/
def destroy (o : Options) (st : St) : St :=
  let st := { st with observerConn := false, observed := [] }
  let st :=
    { st with
      doc := st.doc.map (fun (p : Nat × Elem) =>
        if matchesMarkerSelector o p.2 then (p.1, clearMarkers o p.2) else p) }
  { st with images := [], backgrounds := [], content := [], loadAttempts := [] }

/-- Pop the pending timer with the smallest fire time (insertion order
breaks ties), as the event loop would. -/
def popEarliest : List (Nat × Nat) → Option ((Nat × Nat) × List (Nat × Nat))
  | [] => none
  | p :: rest =>
    match popEarliest rest with
    | none => some (p, [])
    | some (q, rest2) => if p.1 ≤ q.1 then some (p, rest) else some (q, p :: rest2)

/-- Drive the pending retry timers (fuel-bounded event loop). -/
def runTimers (o : Options) (net : Bool) (inj : Nat → List Nat) : Nat → St → St
  | 0, st => st
  | fuel + 1, st =>
    match popEarliest st.timers with
    | none => st
    | some (q, rest) =>
      runTimers o net inj fuel (loadElement o net inj { st with now := q.1, timers := rest } q.2)

def injEmpty : Nat → List Nat := fun _ => []

/-- The retry scenario element: an image whose payload URL never
loads.  An img without a src attribute reflects src as the empty
string; data-src carries the unreachable URL; the element has been
registered (loading class present when cls says so). -/
def theImg (cls : List String) : Elem :=
  { tag := "IMG", src := some "", dataSrc := some "img.png", classes := cls }

def failOpts (r d : Nat) : Options := { retryAttempts := r, retryDelay := d }

/-- State right after the scenario image was classified and observed. -/
def failInit : St :=
  { doc := [(0, theImg ["lazy-loading"])], observerConn := true, observed := [0],
    images := [0] }

/-- The scenario run: the element intersects at time 0, every load
fails, and the event loop then drains the scheduled retries. -/
def failRun (r d fuel : Nat) : St :=
  runTimers (failOpts r d) false injEmpty fuel
    (loadElement (failOpts r d) false injEmpty failInit 0)

/-- The scenario run at the default configuration. -/
def defaultFailRun : St := failRun 2 1000 5

/-- The marker classes an element carries, in class-list order. -/
def markerList (o : Options) (e : Elem) : List String :=
  e.classes.filter (fun c => c == o.loadingClass || c == o.loadedClass || c == o.errorClass)

/-- Boolean pairwise-distinctness of a list of ids. -/
def distinctB : List Nat → Bool
  | [] => true
  | x :: xs => !(xs.contains x) && distinctB xs

/-- A batch the visibility primitive could deliver: every record
targets a currently observed element, and records are coalesced so a
target occurs at most once per batch. -/
def validBatchB (st : St) (b : List Entry) : Bool :=
  b.all (fun en => st.observed.contains en.target) && distinctB (b.map (fun en => en.target))

/-- Deliver a sequence of observation batches to the controller. -/
def runBatches (o : Options) (net : Nat → Bool) (inj : Nat → List Nat) :
    St → List (List Entry) → St
  | st, [] => st
  | st, b :: bs => runBatches o net inj (handleIntersection o net inj st b) bs

/-- Validity of every batch of the sequence at its delivery state. -/
def validSeqB (o : Options) (net : Nat → Bool) (inj : Nat → List Nat) :
    St → List (List Entry) → Bool
  | _, [] => true
  | st, b :: bs => validBatchB st b && validSeqB o net inj (handleIntersection o net inj st b) bs

/-- Number of logged loadElement invocations for element i. -/
def invCount (st : St) (i : Nat) : Nat := (st.invLog.filter (fun p => p.2 == i)).length

/-- 1 when i is currently registered with the observer, else 0. -/
def obsInd (st : St) (i : Nat) : Nat := if st.observed.contains i then 1 else 0

/-- The retry counter consulted for the scenario image. -/
def cnt (st : St) : Nat := (mapGet st.loadAttempts (some "img.png")).getD 0

/-- An image the classifier matches (data-src attribute present) that
carries no loadable payload: src and data-src both reflect the empty
string, which is falsy. -/
def imgNoPayload : Elem :=
  { tag := "IMG", src := some "", dataSrc := some "", classes := ["lazy-loading"] }

def stMissing : St := { doc := [(0, imgNoPayload)], observerConn := true, images := [0] }

/-- The state after the first load attempt on the payload-less image. -/
def stMissingAfter : St := loadElement defaultOptions false injEmpty stMissing 0

/-- A pending image with a loadable payload. -/
def imgPending : Elem :=
  { tag := "IMG", src := some "", dataSrc := some "a.png", classes := ["lazy-loading"] }

def stPending : St := { doc := [(0, imgPending)], observerConn := true, images := [0] }

/-- A pending image carrying the full payload: data-src, data-srcset
and data-sizes all truthy. -/
def imgPendingFull : Elem :=
  { tag := "IMG", src := some "", dataSrc := some "a.png",
    dataSrcset := some "a-2x.png 2x", dataSizes := some "100vw",
    classes := ["lazy-loading"] }

def stPendingFull : St :=
  { doc := [(0, imgPendingFull)], observerConn := true, images := [0] }

/-- One successful load of the pending image. -/
def stLoadedOnce : St := loadElement defaultOptions true injEmpty stPending 0

/-- A second load call on the already-resolved element. -/
def stLoadedTwice : St := loadElement defaultOptions true injEmpty stLoadedOnce 0

/-- An image that reached terminal failure: error marker set, data-src
payload still present (it is only deleted on success). -/
def imgErrored : Elem :=
  { tag := "IMG", src := some "", dataSrc := some "a.png", classes := ["lazy-error"] }

def stErrored : St := { doc := [(0, imgErrored)], observerConn := true }

/-- refresh applied to the document holding the errored image. -/
def stRefreshed : St := (refresh defaultOptions stErrored).1

/-- A background-role element whose data-bg attribute is present but
empty: classified, yet without a loadable payload. -/
def divEmptyBg : Elem := { tag := "DIV", dataBg := some "" }

/-- Fallback init (no IntersectionObserver) on a document holding only
the payload-less background element; every network load would succeed. -/
def stFallback : St :=
  (init defaultOptions false (fun _ => true) injEmpty { doc := [(0, divEmptyBg)] }).1

/-- A content element (data-lazy) with no src, data-src or data-bg: its
attempt-map key is the undefined key.  The shared counter for that key
already sits at the default bound, raised by failures of other content
elements. -/
def divLazyB : Elem := { tag := "DIV", dataLazy := some "b.html", classes := ["lazy-loading"] }

def stShared : St :=
  { doc := [(1, divLazyB)], observerConn := true, content := [1],
    loadAttempts := [(none, 2)] }

/-- A document with one element of every fallback-relevant kind: an
image with a loadable payload, an image with an empty payload, a
background with a URL, a background with an empty URL, a content
element with an empty URL and a content element with a fragment URL. -/
def fallbackDoc : List (Nat × Elem) :=
  [ (0, { tag := "IMG", src := some "", dataSrc := some "a.png" }),
    (1, { tag := "IMG", src := some "", dataSrc := some "" }),
    (2, { tag := "DIV", dataBg := some "b.png" }),
    (3, { tag := "DIV", dataBg := some "" }),
    (4, { tag := "DIV", dataLazy := some "" }),
    (5, { tag := "DIV", dataLazy := some "c.html" }) ]

/-- Fallback init over the mixed document, all loads succeeding. -/
def stMixedFallback : St :=
  (init defaultOptions false (fun _ => true) injEmpty { doc := fallbackDoc }).1

/-! ### Generic helper lemmas -/

theorem contains_iff {α : Type} [BEq α] [LawfulBEq α] (l : List α) (a : α) :
    l.contains a = true ↔ a ∈ l := List.elem_iff

theorem contains_append {α : Type} [BEq α] [LawfulBEq α] (l₁ l₂ : List α) (a : α) :
    (l₁ ++ l₂).contains a = (l₁.contains a || l₂.contains a) := by
  by_cases h : a ∈ l₁ ++ l₂
  · rcases List.mem_append.1 h with h1 | h2
    · rw [(contains_iff _ _).2 h, (contains_iff _ _).2 h1, Bool.true_or]
    · rw [(contains_iff _ _).2 h, (contains_iff _ _).2 h2, Bool.or_true]
  · have h1 : ¬ a ∈ l₁ := fun hm => h (List.mem_append.2 (Or.inl hm))
    have h2 : ¬ a ∈ l₂ := fun hm => h (List.mem_append.2 (Or.inr hm))
    rw [Bool.eq_false_iff.2 (fun hc => h ((contains_iff _ _).1 hc)),
      Bool.eq_false_iff.2 (fun hc => h1 ((contains_iff _ _).1 hc)),
      Bool.eq_false_iff.2 (fun hc => h2 ((contains_iff _ _).1 hc))]
    rfl

theorem contains_filter_false {α : Type} [BEq α] [LawfulBEq α]
    (l : List α) (p : α → Bool) (a : α) (h : p a = false) :
    (l.filter p).contains a = false := by
  rw [Bool.eq_false_iff]
  intro hc
  have hm := (contains_iff (l.filter p) a).1 hc
  have := (List.mem_filter.1 hm).2
  rw [h] at this
  exact Bool.false_ne_true this

theorem foldl_preserves {α β γ : Type} (f : β → α → β) (proj : β → γ)
    (h : ∀ b a, proj (f b a) = proj b) :
    ∀ (l : List α) (b : β), proj (l.foldl f b) = proj b := by
  intro l
  induction l with
  | nil => intro b; rfl
  | cons x xs ih => intro b; rw [List.foldl_cons, ih, h]

/-! ### Frame lemmas for the store primitives -/

@[simp] theorem setElem_observerConn (st : St) (i : Nat) (e : Elem) :
    (setElem st i e).observerConn = st.observerConn := rfl

@[simp] theorem setElem_observed (st : St) (i : Nat) (e : Elem) :
    (setElem st i e).observed = st.observed := rfl

@[simp] theorem setElem_images (st : St) (i : Nat) (e : Elem) :
    (setElem st i e).images = st.images := rfl

@[simp] theorem setElem_backgrounds (st : St) (i : Nat) (e : Elem) :
    (setElem st i e).backgrounds = st.backgrounds := rfl

@[simp] theorem setElem_content (st : St) (i : Nat) (e : Elem) :
    (setElem st i e).content = st.content := rfl

@[simp] theorem setElem_loadAttempts (st : St) (i : Nat) (e : Elem) :
    (setElem st i e).loadAttempts = st.loadAttempts := rfl

@[simp] theorem setElem_timers (st : St) (i : Nat) (e : Elem) :
    (setElem st i e).timers = st.timers := rfl

@[simp] theorem setElem_events (st : St) (i : Nat) (e : Elem) :
    (setElem st i e).events = st.events := rfl

@[simp] theorem setElem_invLog (st : St) (i : Nat) (e : Elem) :
    (setElem st i e).invLog = st.invLog := rfl

@[simp] theorem setElem_now (st : St) (i : Nat) (e : Elem) :
    (setElem st i e).now = st.now := rfl

@[simp] theorem observe_observerConn (st : St) (i : Nat) :
    (observe st i).observerConn = st.observerConn := by unfold observe; split <;> rfl

@[simp] theorem observe_doc (st : St) (i : Nat) : (observe st i).doc = st.doc := by
  unfold observe; split <;> rfl

@[simp] theorem observe_images (st : St) (i : Nat) : (observe st i).images = st.images := by
  unfold observe; split <;> rfl

@[simp] theorem observe_backgrounds (st : St) (i : Nat) :
    (observe st i).backgrounds = st.backgrounds := by unfold observe; split <;> rfl

@[simp] theorem observe_content (st : St) (i : Nat) :
    (observe st i).content = st.content := by unfold observe; split <;> rfl

@[simp] theorem observe_loadAttempts (st : St) (i : Nat) :
    (observe st i).loadAttempts = st.loadAttempts := by unfold observe; split <;> rfl

@[simp] theorem observe_timers (st : St) (i : Nat) :
    (observe st i).timers = st.timers := by unfold observe; split <;> rfl

@[simp] theorem observe_events (st : St) (i : Nat) :
    (observe st i).events = st.events := by unfold observe; split <;> rfl

@[simp] theorem observe_invLog (st : St) (i : Nat) :
    (observe st i).invLog = st.invLog := by unfold observe; split <;> rfl

@[simp] theorem observe_now (st : St) (i : Nat) :
    (observe st i).now = st.now := by unfold observe; split <;> rfl

theorem observe_contains (st : St) (i x : Nat) :
    (observe st i).observed.contains x = (st.observed.contains x || i == x) := by
  unfold observe
  by_cases hx : i = x
  · subst hx
    split
    · rename_i h; simp [h, (contains_iff _ _).1 h]
    · rw [contains_append]
      simp [List.contains]
  · have hix : (i == x) = false := beq_eq_false_iff_ne.2 hx
    split
    · simp [hix]
    · rw [contains_append, hix]
      have hxi : ([i].contains x) = false := by
        simp [List.contains, Ne.symm hx]
      rw [hxi, Bool.or_false]

@[simp] theorem unobserve_invLog (st : St) (i : Nat) :
    (unobserve st i).invLog = st.invLog := rfl

@[simp] theorem unobserve_doc (st : St) (i : Nat) : (unobserve st i).doc = st.doc := rfl

theorem unobserve_contains_ne (st : St) (j x : Nat) (h : ¬ x = j) :
    (unobserve st j).observed.contains x = st.observed.contains x := by
  unfold unobserve
  by_cases hc : x ∈ st.observed
  · have hm : x ∈ st.observed.filter (fun y => !(y == j)) :=
      List.mem_filter.2 ⟨hc, by simp [beq_eq_false_iff_ne.2 h]⟩
    rw [(contains_iff _ _).2 hm, (contains_iff _ _).2 hc]
  · have hf : ¬ x ∈ st.observed.filter (fun y => !(y == j)) := fun hm =>
      hc (List.mem_filter.1 hm).1
    rw [Bool.eq_false_iff.2 (fun hcc => hf ((contains_iff _ _).1 hcc)),
      Bool.eq_false_iff.2 (fun hcc => hc ((contains_iff _ _).1 hcc))]

theorem unobserve_contains_self (st : St) (j : Nat) :
    (unobserve st j).observed.contains j = false := by
  unfold unobserve
  exact contains_filter_false _ _ _ (by simp)

/-! ### Lookup and update of the store and the attempts map -/

theorem find?_append_or {κ : Type} (l₁ l₂ : List κ) (p : κ → Bool) :
    (l₁ ++ l₂).find? p =
      match l₁.find? p with
      | some x => some x
      | none => l₂.find? p := by
  induction l₁ with
  | nil => rfl
  | cons x xs ih =>
    simp only [List.cons_append, List.find?]
    cases hx : p x with
    | true => rfl
    | false => exact ih

theorem find_map_set_ne {κ ν : Type} [BEq κ] [LawfulBEq κ]
    (l : List (κ × ν)) (i j : κ) (e : ν) (h : ¬ i = j) :
    (l.map (fun p => if p.1 == i then (i, e) else p)).find? (fun p => p.1 == j) =
      l.find? (fun p => p.1 == j) := by
  induction l with
  | nil => rfl
  | cons x xs ih =>
    by_cases hx : x.1 = i
    · have h1 : (x.1 == i) = true := beq_iff_eq.2 hx
      have h2 : (x.1 == j) = false := beq_eq_false_iff_ne.2 (by rw [hx]; exact h)
      have h3 : ((i, e).1 == j) = false := beq_eq_false_iff_ne.2 h
      simp only [List.map_cons, List.find?, h1, if_pos, h2, h3, cond_false]
      exact ih
    · have h1 : (x.1 == i) = false := beq_eq_false_iff_ne.2 hx
      simp only [List.map_cons, List.find?, h1, Bool.false_eq_true, not_false_iff,
        if_false]
      cases hj : (x.1 == j) with
      | true => rfl
      | false => exact ih

theorem find_map_set_self {κ ν : Type} [BEq κ] [LawfulBEq κ]
    (l : List (κ × ν)) (i : κ) (e : ν)
    (h : (l.find? (fun p => p.1 == i)).isSome = true) :
    (l.map (fun p => if p.1 == i then (i, e) else p)).find? (fun p => p.1 == i) =
      some (i, e) := by
  induction l with
  | nil => simp [List.find?] at h
  | cons x xs ih =>
    by_cases hx : x.1 = i
    · have h1 : (x.1 == i) = true := beq_iff_eq.2 hx
      simp only [List.map_cons, List.find?, h1, if_pos, beq_self_eq_true, cond_true]
    · have h1 : (x.1 == i) = false := beq_eq_false_iff_ne.2 hx
      simp only [List.find?, h1, cond_false] at h
      simp only [List.map_cons, List.find?, h1, Bool.false_eq_true, not_false_iff,
        if_false, cond_false]
      exact ih h

theorem find_map_set_isSome {κ ν : Type} [BEq κ] [LawfulBEq κ]
    (l : List (κ × ν)) (i j : κ) (e : ν) :
    ((l.map (fun p => if p.1 == i then (i, e) else p)).find? (fun p => p.1 == j)).isSome =
      (l.find? (fun p => p.1 == j)).isSome := by
  induction l with
  | nil => rfl
  | cons x xs ih =>
    by_cases hx : x.1 = i
    · have h1 : (x.1 == i) = true := beq_iff_eq.2 hx
      cases hj : (i == j) with
      | true =>
        have h2 : (x.1 == j) = true := by rw [hx]; exact hj
        simp [List.find?, h1, h2, hj]
      | false =>
        have h2 : (x.1 == j) = false := by rw [hx]; exact hj
        simp only [List.map_cons, List.find?, h1, if_pos, hj, h2, cond_false]
        exact ih
    · have h1 : (x.1 == i) = false := beq_eq_false_iff_ne.2 hx
      simp only [List.map_cons, List.find?, h1, Bool.false_eq_true, not_false_iff,
        if_false]
      cases hj : (x.1 == j) with
      | true => rfl
      | false => exact ih

theorem findElem_setElem_ne (st : St) (i j : Nat) (e : Elem) (h : ¬ i = j) :
    findElem (setElem st i e) j = findElem st j := by
  unfold findElem setElem
  rw [find_map_set_ne st.doc i j e h]

theorem findElem_setElem_self (st : St) (i : Nat) (e : Elem)
    (h : (st.doc.find? (fun p => p.1 == i)).isSome = true) :
    findElem (setElem st i e) i = e := by
  unfold findElem setElem
  rw [find_map_set_self st.doc i e h]

theorem setElem_find_isSome (st : St) (i j : Nat) (e : Elem) :
    ((setElem st i e).doc.find? (fun p => p.1 == j)).isSome =
      (st.doc.find? (fun p => p.1 == j)).isSome := by
  unfold setElem
  exact find_map_set_isSome st.doc i j e

theorem mapGet_mapSet_self (m : List (Option String × Nat)) (k : Option String) (v : Nat) :
    mapGet (mapSet m k v) k = some v := by
  unfold mapSet
  split
  · rename_i h
    unfold mapGet
    rw [find_map_set_self m k v h]
  · rename_i h
    unfold mapGet
    rw [find?_append_or]
    have hn : m.find? (fun p => p.1 == k) = none := by
      cases hf : m.find? (fun p => p.1 == k) with
      | none => rfl
      | some x => rw [hf] at h; simp at h
    rw [hn]
    simp [List.find?]

theorem mapGet_mapSet_ne (m : List (Option String × Nat)) (k1 k2 : Option String) (v : Nat)
    (h : ¬ k1 = k2) : mapGet (mapSet m k1 v) k2 = mapGet m k2 := by
  unfold mapSet
  split
  · unfold mapGet
    rw [find_map_set_ne m k1 k2 v h]
  · unfold mapGet
    rw [find?_append_or]
    have h3 : ((k1, v).1 == k2) = false := beq_eq_false_iff_ne.2 h
    cases hf : m.find? (fun p => p.1 == k2) with
    | none => simp [List.find?, h3]
    | some x => rfl

/-! ### Frame lemmas for onElementLoaded and handleLoadError -/

@[simp] theorem onElementLoaded_observerConn (o : Options) (st : St) (i : Nat) :
    (onElementLoaded o st i).observerConn = st.observerConn := rfl

@[simp] theorem onElementLoaded_observed (o : Options) (st : St) (i : Nat) :
    (onElementLoaded o st i).observed = st.observed := rfl

@[simp] theorem onElementLoaded_images (o : Options) (st : St) (i : Nat) :
    (onElementLoaded o st i).images = st.images := rfl

@[simp] theorem onElementLoaded_backgrounds (o : Options) (st : St) (i : Nat) :
    (onElementLoaded o st i).backgrounds = st.backgrounds := rfl

@[simp] theorem onElementLoaded_content (o : Options) (st : St) (i : Nat) :
    (onElementLoaded o st i).content = st.content := rfl

@[simp] theorem onElementLoaded_loadAttempts (o : Options) (st : St) (i : Nat) :
    (onElementLoaded o st i).loadAttempts = st.loadAttempts := rfl

@[simp] theorem onElementLoaded_timers (o : Options) (st : St) (i : Nat) :
    (onElementLoaded o st i).timers = st.timers := rfl

@[simp] theorem onElementLoaded_invLog (o : Options) (st : St) (i : Nat) :
    (onElementLoaded o st i).invLog = st.invLog := rfl

@[simp] theorem onElementLoaded_now (o : Options) (st : St) (i : Nat) :
    (onElementLoaded o st i).now = st.now := rfl

@[simp] theorem onElementLoaded_events (o : Options) (st : St) (i : Nat) :
    (onElementLoaded o st i).events = st.events ++ [Ev.lazyLoaded i] := rfl

@[simp] theorem handleLoadError_observerConn (o : Options) (st : St) (i : Nat) :
    (handleLoadError o st i).observerConn = st.observerConn := by
  simp only [handleLoadError]
  split
  · rfl
  · split <;> rfl

@[simp] theorem handleLoadError_observed (o : Options) (st : St) (i : Nat) :
    (handleLoadError o st i).observed = st.observed := by
  simp only [handleLoadError]
  split
  · rfl
  · split <;> rfl

@[simp] theorem handleLoadError_images (o : Options) (st : St) (i : Nat) :
    (handleLoadError o st i).images = st.images := by
  simp only [handleLoadError]
  split
  · rfl
  · split <;> rfl

@[simp] theorem handleLoadError_backgrounds (o : Options) (st : St) (i : Nat) :
    (handleLoadError o st i).backgrounds = st.backgrounds := by
  simp only [handleLoadError]
  split
  · rfl
  · split <;> rfl

@[simp] theorem handleLoadError_content (o : Options) (st : St) (i : Nat) :
    (handleLoadError o st i).content = st.content := by
  simp only [handleLoadError]
  split
  · rfl
  · split <;> rfl

@[simp] theorem handleLoadError_invLog (o : Options) (st : St) (i : Nat) :
    (handleLoadError o st i).invLog = st.invLog := by
  simp only [handleLoadError]
  split
  · rfl
  · split <;> rfl

@[simp] theorem handleLoadError_now (o : Options) (st : St) (i : Nat) :
    (handleLoadError o st i).now = st.now := by
  simp only [handleLoadError]
  split
  · rfl
  · split <;> rfl

/-- The retry branch of handleLoadError: below the bound, the counter
is bumped and one loadElement call is scheduled after
retryDelay * (attempts + 1); nothing else changes. -/
theorem handleLoadError_retry (o : Options) (st : St) (i : Nat)
    (h : (mapGet st.loadAttempts (attemptKey (findElem st i))).getD 0 < o.retryAttempts) :
    handleLoadError o st i =
      { st with
        loadAttempts := mapSet st.loadAttempts (attemptKey (findElem st i))
          ((mapGet st.loadAttempts (attemptKey (findElem st i))).getD 0 + 1)
        timers := st.timers ++
          [(st.now + o.retryDelay *
            ((mapGet st.loadAttempts (attemptKey (findElem st i))).getD 0 + 1), i)] } := by
  simp only [handleLoadError]
  rw [if_pos h]

/-- In the terminal branch the timers are untouched: no retry is
scheduled. -/
theorem handleLoadError_terminal_timers (o : Options) (st : St) (i : Nat)
    (h : ¬ (mapGet st.loadAttempts (attemptKey (findElem st i))).getD 0 < o.retryAttempts) :
    (handleLoadError o st i).timers = st.timers := by
  simp only [handleLoadError]
  rw [if_neg h]
  split <;> rfl

/-- In the terminal branch the attempts map is untouched. -/
theorem handleLoadError_terminal_loadAttempts (o : Options) (st : St) (i : Nat)
    (h : ¬ (mapGet st.loadAttempts (attemptKey (findElem st i))).getD 0 < o.retryAttempts) :
    (handleLoadError o st i).loadAttempts = st.loadAttempts := by
  simp only [handleLoadError]
  rw [if_neg h]
  split <;> rfl

/-- The terminal branch dispatches lazyError with attempts + 1. -/
theorem handleLoadError_terminal_events (o : Options) (st : St) (i : Nat)
    (h : ¬ (mapGet st.loadAttempts (attemptKey (findElem st i))).getD 0 < o.retryAttempts) :
    (handleLoadError o st i).events = st.events ++
      [Ev.lazyError i ((mapGet st.loadAttempts (attemptKey (findElem st i))).getD 0 + 1)] := by
  simp only [handleLoadError]
  rw [if_neg h]
  split <;> rfl

/-- The retry branch leaves the document, the events and the rest of
the state untouched apart from the counter and the new timer. -/
theorem handleLoadError_retry_doc (o : Options) (st : St) (i : Nat)
    (h : (mapGet st.loadAttempts (attemptKey (findElem st i))).getD 0 < o.retryAttempts) :
    (handleLoadError o st i).doc = st.doc := by
  rw [handleLoadError_retry o st i h]

theorem handleLoadError_retry_events (o : Options) (st : St) (i : Nat)
    (h : (mapGet st.loadAttempts (attemptKey (findElem st i))).getD 0 < o.retryAttempts) :
    (handleLoadError o st i).events = st.events := by
  rw [handleLoadError_retry o st i h]

/-! ### Frame lemmas for the folds and the loaders -/

/-- All controller fields except the document and the observed set, as
one projection: the pieces the registration folds can never touch. -/
def stFrame (s : St) :
    Bool × List Nat × List Nat × List Nat × List (Option String × Nat) ×
      List (Nat × Nat) × List Ev × List (Nat × Nat) × Nat :=
  (s.observerConn, s.images, s.backgrounds, s.content, s.loadAttempts, s.timers, s.events,
    s.invLog, s.now)

theorem pncStep_stFrame (o : Options) (acc : St × Bool) (i : Nat) :
    stFrame (pncStep o acc i).1 = stFrame acc.1 := by
  unfold pncStep
  dsimp only
  split
  · split
    · split
      · simp [stFrame, updateElem]
      · rfl
    · rfl
  · rfl

theorem processNewContent_stFrame (o : Options) (st : St) (ids : List Nat) :
    stFrame (processNewContent o st ids).1 = stFrame st :=
  foldl_preserves (pncStep o) (fun acc => stFrame acc.1) (pncStep_stFrame o) ids (st, true)

theorem obsStep_stFrame (o : Options) (acc : St × Bool) (i : Nat) :
    stFrame (obsStep o acc i).1 = stFrame acc.1 := by
  unfold obsStep
  split
  · split
    · simp [stFrame, updateElem]
    · rfl
  · rfl

theorem observeElements_stFrame (o : Options) (st : St) :
    stFrame (observeElements o st).1 = stFrame st :=
  foldl_preserves (obsStep o) (fun acc => stFrame acc.1) (obsStep_stFrame o) _ (st, true)

theorem observeElements_loadAttempts (o : Options) (st : St) :
    ((observeElements o st).1).loadAttempts = st.loadAttempts := by
  have h := observeElements_stFrame o st
  simp only [stFrame, Prod.mk.injEq] at h
  exact h.2.2.2.2.1

theorem observeElements_rosters (o : Options) (st : St) :
    ((observeElements o st).1).images = st.images ∧
    ((observeElements o st).1).backgrounds = st.backgrounds ∧
    ((observeElements o st).1).content = st.content := by
  have h := observeElements_stFrame o st
  simp only [stFrame, Prod.mk.injEq] at h
  exact ⟨h.2.1, h.2.2.1, h.2.2.2.1⟩

/-- Projection preserved by a single loadImage or loadBackground call. -/
def ldFrame (s : St) :
    Bool × List Nat × List Nat × List Nat × List Nat × List (Nat × Nat) × Nat :=
  (s.observerConn, s.observed, s.images, s.backgrounds, s.content, s.invLog, s.now)

theorem handleLoadError_ldFrame (o : Options) (st : St) (i : Nat) :
    ldFrame (handleLoadError o st i) = ldFrame st := by
  simp [ldFrame]

theorem onElementLoaded_ldFrame (o : Options) (st : St) (i : Nat) :
    ldFrame (onElementLoaded o st i) = ldFrame st := by
  simp [ldFrame]

theorem loadImage_ldFrame (o : Options) (net : Bool) (st : St) (i : Nat) :
    ldFrame (loadImage o net st i).1 = ldFrame st := by
  unfold loadImage
  dsimp only
  split
  · rfl
  · split
    · rw [onElementLoaded_ldFrame]
      simp [ldFrame]
    · rw [handleLoadError_ldFrame]

theorem loadBackground_ldFrame (o : Options) (net : Bool) (st : St) (i : Nat) :
    ldFrame (loadBackground o net st i).1 = ldFrame st := by
  unfold loadBackground
  dsimp only
  split
  · rfl
  · split
    · rw [onElementLoaded_ldFrame]
      simp [ldFrame]
    · rw [handleLoadError_ldFrame]

/-- Projection preserved by loadContent (which may grow the observed
set through fragment re-classification). -/
def lcFrame (s : St) : Bool × List Nat × List Nat × List Nat × List (Nat × Nat) × Nat :=
  (s.observerConn, s.images, s.backgrounds, s.content, s.invLog, s.now)

theorem stFrame_to_lcFrame {s t : St} (h : stFrame s = stFrame t) : lcFrame s = lcFrame t := by
  simp only [stFrame, Prod.mk.injEq] at h
  simp [lcFrame, h.1, h.2.1, h.2.2.1, h.2.2.2.1, h.2.2.2.2.2.2.2.1, h.2.2.2.2.2.2.2.2]

theorem ldFrame_to_lcFrame {s t : St} (h : ldFrame s = ldFrame t) : lcFrame s = lcFrame t := by
  simp only [ldFrame, Prod.mk.injEq] at h
  simp [lcFrame, h.1, h.2.2.1, h.2.2.2.1, h.2.2.2.2.1, h.2.2.2.2.2.1, h.2.2.2.2.2.2]

theorem loadContent_lcFrame (o : Options) (net : Bool) (inj : Nat → List Nat)
    (st : St) (i : Nat) :
    lcFrame (loadContent o net inj st i).1 = lcFrame st := by
  unfold loadContent
  dsimp only
  split
  · rw [ldFrame_to_lcFrame (onElementLoaded_ldFrame o st i)]
  · split
    · split
      · rw [ldFrame_to_lcFrame (onElementLoaded_ldFrame o _ i),
          stFrame_to_lcFrame (processNewContent_stFrame o _ (inj i))]
        simp [lcFrame]
      · rw [ldFrame_to_lcFrame (handleLoadError_ldFrame o _ i),
          stFrame_to_lcFrame (processNewContent_stFrame o _ (inj i))]
        simp [lcFrame]
    · rw [ldFrame_to_lcFrame (handleLoadError_ldFrame o st i)]

/-- Projection preserved by a whole loadElement call. -/
def leFrame (s : St) : Bool × List Nat × List Nat × List Nat × Nat :=
  (s.observerConn, s.images, s.backgrounds, s.content, s.now)

theorem lcFrame_to_leFrame {s t : St} (h : lcFrame s = lcFrame t) : leFrame s = leFrame t := by
  simp only [lcFrame, Prod.mk.injEq] at h
  simp [leFrame, h.1, h.2.1, h.2.2.1, h.2.2.2.1, h.2.2.2.2.2]

theorem ldFrame_to_leFrame {s t : St} (h : ldFrame s = ldFrame t) : leFrame s = leFrame t := by
  simp only [ldFrame, Prod.mk.injEq] at h
  simp [leFrame, h.1, h.2.2.1, h.2.2.2.1, h.2.2.2.2.1, h.2.2.2.2.2.2]

theorem loadElement_leFrame (o : Options) (net : Bool) (inj : Nat → List Nat)
    (st : St) (i : Nat) :
    leFrame (loadElement o net inj st i) = leFrame st := by
  unfold loadElement
  dsimp only
  split
  · split
    · rw [ldFrame_to_leFrame (loadImage_ldFrame o net _ i)]
      rfl
    · rw [ldFrame_to_leFrame (handleLoadError_ldFrame o _ i),
        ldFrame_to_leFrame (loadImage_ldFrame o net _ i)]
      rfl
  · split
    · split
      · rw [ldFrame_to_leFrame (loadBackground_ldFrame o net _ i)]
        rfl
      · rw [ldFrame_to_leFrame (handleLoadError_ldFrame o _ i),
          ldFrame_to_leFrame (loadBackground_ldFrame o net _ i)]
        rfl
    · split
      · split
        · rw [lcFrame_to_leFrame (loadContent_lcFrame o net inj _ i)]
          rfl
        · rw [ldFrame_to_leFrame (handleLoadError_ldFrame o _ i),
            lcFrame_to_leFrame (loadContent_lcFrame o net inj _ i)]
          rfl
      · rfl

theorem loadImage_invLog (o : Options) (net : Bool) (st : St) (i : Nat) :
    ((loadImage o net st i).1).invLog = st.invLog := by
  have h := loadImage_ldFrame o net st i
  simp only [ldFrame, Prod.mk.injEq] at h
  exact h.2.2.2.2.2.1

theorem loadBackground_invLog (o : Options) (net : Bool) (st : St) (i : Nat) :
    ((loadBackground o net st i).1).invLog = st.invLog := by
  have h := loadBackground_ldFrame o net st i
  simp only [ldFrame, Prod.mk.injEq] at h
  exact h.2.2.2.2.2.1

theorem loadContent_invLog (o : Options) (net : Bool) (inj : Nat → List Nat)
    (st : St) (i : Nat) :
    ((loadContent o net inj st i).1).invLog = st.invLog := by
  have h := loadContent_lcFrame o net inj st i
  simp only [lcFrame, Prod.mk.injEq] at h
  exact h.2.2.2.2.1

/-- loadElement logs exactly one invocation, stamped with the call time. -/
theorem loadElement_invLog (o : Options) (net : Bool) (inj : Nat → List Nat)
    (st : St) (i : Nat) :
    (loadElement o net inj st i).invLog = st.invLog ++ [(st.now, i)] := by
  unfold loadElement
  dsimp only
  split
  · split
    · rw [loadImage_invLog]
    · rw [handleLoadError_invLog, loadImage_invLog]
  · split
    · split
      · rw [loadBackground_invLog]
      · rw [handleLoadError_invLog, loadBackground_invLog]
    · split
      · split
        · rw [loadContent_invLog]
        · rw [handleLoadError_invLog, loadContent_invLog]
      · rfl

/-! ### Observed-set membership through a load -/

theorem contains_cons {α : Type} [BEq α] [LawfulBEq α] (a x : α) (l : List α) :
    (a :: l).contains x = ((x == a) || l.contains x) := by
  cases h : x == a <;> simp [List.contains, List.elem, h]

theorem ldFrame_observed {s t : St} (h : ldFrame s = ldFrame t) : s.observed = t.observed := by
  simp only [ldFrame, Prod.mk.injEq] at h
  exact h.2.1

theorem pncStep_contains_ne (o : Options) (acc : St × Bool) (j x : Nat) (h : ¬ x = j) :
    ((pncStep o acc j).1).observed.contains x = acc.1.observed.contains x := by
  unfold pncStep
  dsimp only
  split
  · split
    · split
      · simp only [updateElem, setElem_observed, observe_contains,
          beq_eq_false_iff_ne.2 (fun hh => h hh.symm), Bool.or_false]
      · rfl
    · rfl
  · rfl

theorem pnc_fold_contains_ne (o : Options) (x : Nat) :
    ∀ ids : List Nat, ids.contains x = false → ∀ acc : St × Bool,
      ((ids.foldl (pncStep o) acc).1).observed.contains x = acc.1.observed.contains x := by
  intro ids
  induction ids with
  | nil => intro _ acc; rfl
  | cons j tl ih =>
    intro h acc
    rw [contains_cons] at h
    rw [List.foldl_cons, ih (Bool.or_eq_false_iff.1 h).2,
      pncStep_contains_ne o acc j x (beq_eq_false_iff_ne.1 (Bool.or_eq_false_iff.1 h).1)]

theorem pncStep_contains_mono (o : Options) (acc : St × Bool) (j x : Nat)
    (h : acc.1.observed.contains x = true) :
    ((pncStep o acc j).1).observed.contains x = true := by
  unfold pncStep
  dsimp only
  split
  · split
    · split
      · simp only [updateElem, setElem_observed, observe_contains, h, Bool.true_or]
      · exact h
    · exact h
  · exact h

theorem pnc_fold_contains_mono (o : Options) (x : Nat) :
    ∀ ids : List Nat, ∀ acc : St × Bool, acc.1.observed.contains x = true →
      ((ids.foldl (pncStep o) acc).1).observed.contains x = true := by
  intro ids
  induction ids with
  | nil => intro acc h; exact h
  | cons j tl ih =>
    intro acc h
    rw [List.foldl_cons]
    exact ih _ (pncStep_contains_mono o acc j x h)

theorem loadContent_contains_ne (o : Options) (net : Bool) (inj : Nat → List Nat)
    (st : St) (i x : Nat) (h : (inj i).contains x = false) :
    ((loadContent o net inj st i).1).observed.contains x = st.observed.contains x := by
  unfold loadContent
  dsimp only
  split
  · rw [onElementLoaded_observed]
  · split
    · split
      · rw [onElementLoaded_observed]
        unfold processNewContent
        rw [pnc_fold_contains_ne o x (inj i) h, setElem_observed]
      · rw [handleLoadError_observed]
        unfold processNewContent
        rw [pnc_fold_contains_ne o x (inj i) h, setElem_observed]
    · rw [handleLoadError_observed]

theorem loadContent_contains_mono (o : Options) (net : Bool) (inj : Nat → List Nat)
    (st : St) (i x : Nat) (h : st.observed.contains x = true) :
    ((loadContent o net inj st i).1).observed.contains x = true := by
  unfold loadContent
  dsimp only
  split
  · rw [onElementLoaded_observed]; exact h
  · split
    · split
      · rw [onElementLoaded_observed]
        unfold processNewContent
        exact pnc_fold_contains_mono o x (inj i) _ (by rw [setElem_observed]; exact h)
      · rw [handleLoadError_observed]
        unfold processNewContent
        exact pnc_fold_contains_mono o x (inj i) _ (by rw [setElem_observed]; exact h)
    · rw [handleLoadError_observed]; exact h

theorem loadElement_contains_ne (o : Options) (net : Bool) (inj : Nat → List Nat)
    (st : St) (i x : Nat) (h : (inj i).contains x = false) :
    (loadElement o net inj st i).observed.contains x = st.observed.contains x := by
  unfold loadElement
  dsimp only
  split
  · split
    · rw [ldFrame_observed (loadImage_ldFrame o net _ i)]
    · rw [handleLoadError_observed, ldFrame_observed (loadImage_ldFrame o net _ i)]
  · split
    · split
      · rw [ldFrame_observed (loadBackground_ldFrame o net _ i)]
      · rw [handleLoadError_observed, ldFrame_observed (loadBackground_ldFrame o net _ i)]
    · split
      · split
        · rw [loadContent_contains_ne o net inj _ i x h]
        · rw [handleLoadError_observed, loadContent_contains_ne o net inj _ i x h]
      · rfl

theorem loadElement_contains_mono (o : Options) (net : Bool) (inj : Nat → List Nat)
    (st : St) (i x : Nat) (h : st.observed.contains x = true) :
    (loadElement o net inj st i).observed.contains x = true := by
  unfold loadElement
  dsimp only
  split
  · split
    · rw [ldFrame_observed (loadImage_ldFrame o net _ i)]; exact h
    · rw [handleLoadError_observed, ldFrame_observed (loadImage_ldFrame o net _ i)]
      exact h
  · split
    · split
      · rw [ldFrame_observed (loadBackground_ldFrame o net _ i)]; exact h
      · rw [handleLoadError_observed, ldFrame_observed (loadBackground_ldFrame o net _ i)]
        exact h
    · split
      · split
        · exact loadContent_contains_mono o net inj _ i x h
        · rw [handleLoadError_observed]
          exact loadContent_contains_mono o net inj _ i x h
      · exact h

/-- A loadElement call adds one invocation for its own target only. -/
theorem invCount_loadElement (o : Options) (net : Bool) (inj : Nat → List Nat)
    (st : St) (j i : Nat) :
    invCount (loadElement o net inj st j) i =
      invCount st i + (if j = i then 1 else 0) := by
  unfold invCount
  rw [loadElement_invLog, List.filter_append, List.length_append]
  by_cases h : j = i
  · subst h; simp
  · simp [h]

theorem invCount_unobserve (st : St) (x i : Nat) :
    invCount (unobserve st x) i = invCount st i := rfl

theorem obsInd_le_one (st : St) (i : Nat) : obsInd st i ≤ 1 := by
  unfold obsInd
  split <;> omega

/-! ### The at-most-once-per-registration measure -/

/-- Processing one observation record never increases the number of
invocations plus the registration indicator of any element. -/
theorem hiStep_measure (o : Options) (net : Nat → Bool) (inj : Nat → List Nat)
    (s : St) (en : Entry) (i : Nat)
    (hinj : ∀ j, (inj j).contains i = false)
    (hobs : en.target = i → en.isIntersecting = true → s.observed.contains i = true) :
    invCount (hiStep o net inj s en) i + obsInd (hiStep o net inj s en) i ≤
      invCount s i + obsInd s i := by
  unfold hiStep
  split
  · rename_i hint
    by_cases ht : en.target = i
    · have hobs1 : s.observed.contains i = true := hobs ht hint
      have hcount : invCount (unobserve (loadElement o (net en.target) inj s en.target)
          en.target) i = invCount s i + 1 := by
        rw [invCount_unobserve, invCount_loadElement, ht, if_pos rfl]
      have hind : obsInd (unobserve (loadElement o (net en.target) inj s en.target)
          en.target) i = 0 := by
        unfold obsInd
        rw [ht, unobserve_contains_self]
        simp
      rw [hcount, hind]
      unfold obsInd
      rw [hobs1, if_pos rfl]
    · have hcount : invCount (unobserve (loadElement o (net en.target) inj s en.target)
          en.target) i = invCount s i := by
        rw [invCount_unobserve, invCount_loadElement, if_neg ht, Nat.add_zero]
      have hind : obsInd (unobserve (loadElement o (net en.target) inj s en.target)
          en.target) i = obsInd s i := by
        unfold obsInd
        rw [unobserve_contains_ne _ _ _ (fun hh => ht hh.symm),
          loadElement_contains_ne o (net en.target) inj s en.target i (hinj en.target)]
      rw [hcount, hind]
  · omega

/-- A step of batch processing keeps every element of the rest of the
batch registered, provided the batch has coalesced targets. -/
theorem hiStep_keeps_observed (o : Options) (net : Nat → Bool) (inj : Nat → List Nat)
    (s : St) (en : Entry) (t : Nat) (ht : ¬ t = en.target)
    (h : s.observed.contains t = true) :
    (hiStep o net inj s en).observed.contains t = true := by
  unfold hiStep
  split
  · rw [unobserve_contains_ne _ _ _ ht]
    exact loadElement_contains_mono o (net en.target) inj s en.target t h
  · exact h

theorem handleIntersection_measure (o : Options) (net : Nat → Bool) (inj : Nat → List Nat)
    (i : Nat) (hinj : ∀ j, (inj j).contains i = false) :
    ∀ (b : List Entry) (s : St),
      b.all (fun en => s.observed.contains en.target) = true →
      distinctB (b.map (fun en => en.target)) = true →
      invCount (handleIntersection o net inj s b) i +
          obsInd (handleIntersection o net inj s b) i ≤
        invCount s i + obsInd s i := by
  intro b
  induction b with
  | nil => intro s _ _; exact Nat.le_refl _
  | cons en tl ih =>
    intro s hall hdist
    have hall1 := List.all_eq_true.1 hall
    have hhead : s.observed.contains en.target = true := hall1 en (List.mem_cons_self en tl)
    rw [List.map_cons] at hdist
    unfold distinctB at hdist
    rw [Bool.and_eq_true] at hdist
    obtain ⟨hnc, hdt⟩ := hdist
    have hnc2 : (tl.map (fun en2 => en2.target)).contains en.target = false := by
      cases hcc : (tl.map (fun en2 => en2.target)).contains en.target
      · rfl
      · rw [hcc] at hnc; simp at hnc
    have hall2 : tl.all
        (fun en2 => (hiStep o net inj s en).observed.contains en2.target) = true := by
      apply List.all_eq_true.2
      intro en2 hm
      apply hiStep_keeps_observed o net inj s en en2.target
      · intro he
        have hmm : en.target ∈ tl.map (fun en3 => en3.target) :=
          he ▸ List.mem_map_of_mem (fun en3 => en3.target) hm
        have hct := (contains_iff _ _).2 hmm
        rw [hnc2] at hct
        exact Bool.false_ne_true hct
      · exact hall1 en2 (List.mem_cons_of_mem en hm)
    have hfold : handleIntersection o net inj s (en :: tl) =
        handleIntersection o net inj (hiStep o net inj s en) tl := by
      unfold handleIntersection
      rw [List.foldl_cons]
    rw [hfold]
    exact Nat.le_trans (ih (hiStep o net inj s en) hall2 hdt)
      (hiStep_measure o net inj s en i hinj (fun he _ => he ▸ hhead))

/-- Over any sequence of batches the primitive could deliver, the
invocation count plus the registration indicator never increases. -/
theorem runBatches_measure (o : Options) (net : Nat → Bool) (inj : Nat → List Nat)
    (i : Nat) (hinj : ∀ j, (inj j).contains i = false) :
    ∀ (bs : List (List Entry)) (s : St), validSeqB o net inj s bs = true →
      invCount (runBatches o net inj s bs) i + obsInd (runBatches o net inj s bs) i ≤
        invCount s i + obsInd s i := by
  intro bs
  induction bs with
  | nil => intro s _; exact Nat.le_refl _
  | cons b tl ih =>
    intro s hv
    unfold validSeqB at hv
    rw [Bool.and_eq_true] at hv
    obtain ⟨hb, htl⟩ := hv
    unfold validBatchB at hb
    rw [Bool.and_eq_true] at hb
    obtain ⟨hall, hdist⟩ := hb
    have hstep := handleIntersection_measure o net inj i hinj b s hall hdist
    have hrest := ih (handleIntersection o net inj s b) htl
    unfold runBatches
    exact Nat.le_trans hrest hstep

/-! ### The retry-bound invariant of the failing-image scenario -/

theorem popEarliest_none (l : List (Nat × Nat)) (h : popEarliest l = none) : l = [] := by
  cases l with
  | nil => rfl
  | cons x xs =>
    unfold popEarliest at h
    cases hx : popEarliest xs with
    | none => rw [hx] at h; cases h
    | some q =>
      rw [hx] at h
      obtain ⟨a, b⟩ := q
      dsimp at h
      split at h <;> cases h

theorem popEarliest_spec (l : List (Nat × Nat)) (q : Nat × Nat) (rest : List (Nat × Nat))
    (h : popEarliest l = some (q, rest)) :
    rest.length + 1 = l.length ∧
      ∀ p : Nat × Nat → Bool, l.all p = true → p q = true ∧ rest.all p = true := by
  induction l generalizing q rest with
  | nil => cases h
  | cons x xs ih =>
    unfold popEarliest at h
    cases hx : popEarliest xs with
    | none =>
      rw [hx] at h
      cases h
      have hxs : xs = [] := popEarliest_none xs hx
      subst hxs
      refine ⟨rfl, fun p hall => ?_⟩
      rw [List.all_cons, Bool.and_eq_true] at hall
      exact ⟨hall.1, rfl⟩
    | some q2 =>
      rw [hx] at h
      obtain ⟨a, b⟩ := q2
      dsimp at h
      split at h
      · cases h
        refine ⟨rfl, fun p hall => ?_⟩
        rw [List.all_cons, Bool.and_eq_true] at hall
        exact ⟨hall.1, hall.2⟩
      · cases h
        obtain ⟨hlen, hall2⟩ := ih _ _ hx
        refine ⟨by simp only [List.length_cons]; omega, fun p hall => ?_⟩
        rw [List.all_cons, Bool.and_eq_true] at hall
        obtain ⟨hq, hrest⟩ := hall2 p hall.2
        exact ⟨hq, by rw [List.all_cons, Bool.and_eq_true]; exact ⟨hall.1, hrest⟩⟩

/-- The invariant carried through the persistently failing run: the
document is the single scenario image (its class list free to vary),
every pending timer targets it, the invocation count plus the pending
timer count stays k above the retry counter, the counter never exceeds
the bound, and every dispatched event is the terminal lazyError with
attempts = bound + 1. -/
def invA (r k : Nat) (st : St) : Prop :=
  (∃ cls, st.doc = [(0, theImg cls)]) ∧
  st.timers.all (fun p => p.2 == 0) = true ∧
  st.invLog.length + st.timers.length = cnt st + k ∧
  cnt st ≤ r ∧
  st.events.all (fun ev => ev == Ev.lazyError 0 (r + 1)) = true

theorem removeClass_theImg (c : String) (cls : List String) :
    removeClass c (theImg cls) = theImg (cls.filter (fun x => !(x == c))) := rfl

theorem addClass_theImg (c : String) (cls : List String) :
    ∃ cls2, addClass c (theImg cls) = theImg cls2 := by
  unfold addClass
  split
  · exact ⟨cls, rfl⟩
  · exact ⟨cls ++ [c], rfl⟩

theorem findElem_scenario (st : St) (cls : List String)
    (hdoc : st.doc = [(0, theImg cls)]) : findElem st 0 = theImg cls := by
  unfold findElem
  rw [hdoc]
  rfl

theorem attemptKey_theImg (cls : List String) :
    attemptKey (theImg cls) = some "img.png" := rfl

theorem hLE_doc_shape (o : Options) (st : St) (cls : List String)
    (hdoc : st.doc = [(0, theImg cls)]) :
    ∃ cls2, (handleLoadError o st 0).doc = [(0, theImg cls2)] := by
  have hfind := findElem_scenario st cls hdoc
  simp only [handleLoadError, hfind]
  split
  · exact ⟨cls, hdoc⟩
  · have hph : ((theImg cls).tag == "IMG" && truthy (theImg cls).dataPlaceholder) = false :=
      rfl
    rw [hph]
    simp only [Bool.false_eq_true, if_false]
    simp only [updateElem, setElem, hfind, hdoc]
    rw [removeClass_theImg]
    obtain ⟨cls2, h2⟩ := addClass_theImg o.errorClass (cls.filter
      (fun x => !(x == o.loadingClass)))
    exact ⟨cls2, by simp [List.map, h2]⟩

theorem loadImage_fail_scenario (o : Options) (st : St) (cls : List String)
    (hdoc : st.doc = [(0, theImg cls)]) :
    loadImage o false st 0 = (handleLoadError o st 0, false) := by
  have hfind := findElem_scenario st cls hdoc
  simp only [loadImage, hfind]
  rfl

theorem loadElement_fail_scenario (o : Options) (st : St) (cls : List String)
    (hdoc : st.doc = [(0, theImg cls)]) :
    loadElement o false injEmpty st 0 =
      handleLoadError o (handleLoadError o
        { st with invLog := st.invLog ++ [(st.now, 0)] } 0) 0 := by
  have hdoc2 : ({ st with invLog := st.invLog ++ [(st.now, 0)] } : St).doc =
      [(0, theImg cls)] := hdoc
  have hfind := findElem_scenario _ cls hdoc2
  simp only [loadElement, hfind]
  rw [loadImage_fail_scenario o _ cls hdoc2]
  rfl

theorem cnt_of_loadAttempts (st st2 : St) (h : st2.loadAttempts = st.loadAttempts) :
    cnt st2 = cnt st := by
  unfold cnt
  rw [h]

/-- handleLoadError preserves the scenario invariant. -/
theorem hLE_invA (r d k : Nat) (st : St) (h : invA r k st) :
    invA r k (handleLoadError (failOpts r d) st 0) := by
  obtain ⟨⟨cls, hdoc⟩, htg, hsum, hle, hev⟩ := h
  have hfind := findElem_scenario st cls hdoc
  have hkey : attemptKey (findElem st 0) = some "img.png" := by
    rw [hfind]
    exact attemptKey_theImg cls
  have hgd : (mapGet st.loadAttempts (some "img.png")).getD 0 = cnt st := rfl
  by_cases hc : cnt st < r
  · have heq := handleLoadError_retry (failOpts r d) st 0 (by rw [hkey]; exact hc)
    rw [hkey, hgd] at heq
    rw [heq]
    refine ⟨⟨cls, hdoc⟩, ?_, ?_, ?_, hev⟩
    · rw [List.all_append, htg]
      rfl
    · have hcnt2 : cnt { st with
          loadAttempts := mapSet st.loadAttempts (some "img.png") (cnt st + 1)
          timers := st.timers ++ [(st.now + (failOpts r d).retryDelay * (cnt st + 1), 0)] } =
          cnt st + 1 := by
        unfold cnt
        rw [mapGet_mapSet_self]
        rfl
      rw [hcnt2]
      simp only [List.length_append, List.length_cons, List.length_nil]
      omega
    · have hcnt2 : cnt { st with
          loadAttempts := mapSet st.loadAttempts (some "img.png") (cnt st + 1)
          timers := st.timers ++ [(st.now + (failOpts r d).retryDelay * (cnt st + 1), 0)] } =
          cnt st + 1 := by
        unfold cnt
        rw [mapGet_mapSet_self]
        rfl
      rw [hcnt2]
      omega
  · have hcond : ¬ (mapGet st.loadAttempts (attemptKey (findElem st 0))).getD 0 <
        (failOpts r d).retryAttempts := by
      rw [hkey]
      exact hc
    have hceq : cnt st = r := Nat.le_antisymm hle (Nat.not_lt.1 hc)
    refine ⟨hLE_doc_shape (failOpts r d) st cls hdoc, ?_, ?_, ?_, ?_⟩
    · rw [handleLoadError_terminal_timers _ _ _ hcond]
      exact htg
    · rw [handleLoadError_invLog, handleLoadError_terminal_timers _ _ _ hcond,
        cnt_of_loadAttempts st _ (handleLoadError_terminal_loadAttempts _ _ _ hcond)]
      exact hsum
    · rw [cnt_of_loadAttempts st _ (handleLoadError_terminal_loadAttempts _ _ _ hcond)]
      exact hle
    · rw [handleLoadError_terminal_events _ _ _ hcond, hkey, hgd]
      rw [List.all_append, hev]
      have hrr : cnt st + 1 = r + 1 := by omega
      simp [hrr]

/-- A failing loadElement call preserves the invariant, raising k by
one: it logs one invocation and then runs the error handler twice (once
from the decode onerror callback, once from the catch of loadElement). -/
theorem loadElement_invA (r d k : Nat) (st : St) (h : invA r k st) :
    invA r (k + 1) (loadElement (failOpts r d) false injEmpty st 0) := by
  obtain ⟨⟨cls, hdoc⟩, htg, hsum, hle, hev⟩ := h
  rw [loadElement_fail_scenario (failOpts r d) st cls hdoc]
  apply hLE_invA
  apply hLE_invA
  refine ⟨⟨cls, hdoc⟩, htg, ?_, hle, hev⟩
  simp only [List.length_append, List.length_cons, List.length_nil]
  have hcnt2 : cnt { st with invLog := st.invLog ++ [(st.now, 0)] } = cnt st := rfl
  rw [hcnt2]
  omega

/-- Draining any number of pending retry timers preserves the
invariant at k = 1. -/
theorem runTimers_invA (r d : Nat) :
    ∀ (fuel : Nat) (st : St), invA r 1 st →
      invA r 1 (runTimers (failOpts r d) false injEmpty fuel st) := by
  intro fuel
  induction fuel with
  | zero => intro st h; exact h
  | succ n ih =>
    intro st h
    unfold runTimers
    cases hp : popEarliest st.timers with
    | none => exact h
    | some q =>
      obtain ⟨⟨t, tgt⟩, rest⟩ := q
      obtain ⟨⟨cls, hdoc⟩, htg, hsum, hle, hev⟩ := h
      obtain ⟨hlen, hall⟩ := popEarliest_spec st.timers (t, tgt) rest hp
      obtain ⟨hq, hrest⟩ := hall _ htg
      have htgt : tgt = 0 := by simpa using hq
      subst htgt
      apply ih
      have hk0 : invA r 0 { st with now := t, timers := rest } := by
        refine ⟨⟨cls, hdoc⟩, hrest, ?_, hle, hev⟩
        have hcnt2 : cnt { st with now := t, timers := rest } = cnt st := rfl
        dsimp only
        rw [hcnt2]
        omega
      exact loadElement_invA r d 0 _ hk0

/-! ### Helpers for destroy and refresh -/

theorem clearMarkers_not_marker (o : Options) (e : Elem) :
    matchesMarkerSelector o (clearMarkers o e) = false := by
  unfold matchesMarkerSelector clearMarkers
  dsimp only
  rw [contains_filter_false _ _ _ (by simp),
    contains_filter_false _ _ _ (by simp),
    contains_filter_false _ _ _ (by simp)]
  rfl

theorem destroy_doc_clean (o : Options) (st : St) :
    (destroy o st).doc.all (fun p => !(matchesMarkerSelector o p.2)) = true := by
  unfold destroy
  dsimp only
  rw [List.all_eq_true]
  intro p hp
  rw [List.mem_map] at hp
  obtain ⟨q, hq, hpq⟩ := hp
  by_cases hm : matchesMarkerSelector o q.2 = true
  · rw [← hpq, if_pos hm]
    simp [clearMarkers_not_marker]
  · rw [← hpq, if_neg hm]
    have hm2 : matchesMarkerSelector o q.2 = false := Bool.eq_false_iff.2 hm
    simp [hm2]

/-! ### Claim theorems -/

/-- C8: after refresh() followed by destroy(), there remain zero active
observer registrations, the observer itself is released, the attempt
counter table is empty, the element rosters are released, and no
element of the document carries any of the three lifecycle marker
classes. -/
theorem c8_refresh_destroy_clean (o : Options) (st : St) :
    (destroy o (refresh o st).1).observed = [] ∧
    (destroy o (refresh o st).1).observerConn = false ∧
    (destroy o (refresh o st).1).loadAttempts = [] ∧
    (destroy o (refresh o st).1).images = [] ∧
    (destroy o (refresh o st).1).backgrounds = [] ∧
    (destroy o (refresh o st).1).content = [] ∧
    (destroy o (refresh o st).1).doc.all
      (fun p => !(matchesMarkerSelector o p.2)) = true :=
  ⟨rfl, rfl, rfl, rfl, rfl, rfl, destroy_doc_clean o (refresh o st).1⟩

/-- C9: refresh() recomputes the three rosters from the document and
leaves the attempt counter table exactly as it was: every key keeps the
count it had before the call. -/
theorem c9_refresh_preserves_attempts (o : Options) (st : St) :
    ((refresh o st).1).loadAttempts = st.loadAttempts ∧
    ((refresh o st).1).images = (collectElements o st).images ∧
    ((refresh o st).1).backgrounds = (collectElements o st).backgrounds ∧
    ((refresh o st).1).content = (collectElements o st).content := by
  unfold refresh
  dsimp only
  split
  · refine ⟨?_, ?_, ?_, ?_⟩
    · rw [observeElements_loadAttempts]
      rfl
    · rw [(observeElements_rosters o _).1]
      rfl
    · rw [(observeElements_rosters o _).2.1]
      rfl
    · rw [(observeElements_rosters o _).2.2]
      rfl
  · refine ⟨?_, ?_, ?_, ?_⟩
    · rw [observeElements_loadAttempts]
      rfl
    · rw [(observeElements_rosters o _).1]
    · rw [(observeElements_rosters o _).2.1]
    · rw [(observeElements_rosters o _).2.2]

/-- C1 counterexample: the attempts count carried by a terminal
lazyError notification is not the number of Loader invocations reached.
In the default failing scenario the first two terminal notifications
are dispatched at the 2nd invocation (only 2 invocations logged) yet
already carry attempts = 3; and on the shared-key state one single
invocation of content element 1 dispatches attempts = 3, because the
counter belongs to the shared undefined key and was raised by other
elements. -/
theorem c1_attempts_cex :
    (failRun 2 1000 1).invLog.length = 2 ∧
    (failRun 2 1000 1).events = [Ev.lazyError 0 3, Ev.lazyError 0 3] ∧
    invCount (loadElement defaultOptions false injEmpty stShared 1) 1 = 1 ∧
    (loadElement defaultOptions false injEmpty stShared 1).events =
      [Ev.lazyError 1 3, Ev.lazyError 1 3] := by
  refine ⟨by decide, by decide, by decide, by decide⟩

/-- C1 amended: every error-handler run on any state and element either
(counter below retryAttempts) increments the per-key counter and
schedules exactly one retry, or (counter at the bound) schedules
nothing and dispatches lazyError with attempts = counter + 1, bounding
the retries any key can ever cause at retryAttempts.  In the
persistently failing single-element scenario the Loader is invoked at
most retryAttempts + 1 times no matter how far the event loop is
driven, every notification carries attempts = retryAttempts + 1, and
with the default configuration the element is invoked exactly 3 times
and ends with the error marker.  The attempts count equals the
eventual invocation total of that private-key element, not the count
reached at dispatch nor, under a shared key, the per-element count. -/
theorem c1_loader_invocation_amended (r d fuel : Nat) (o : Options) (st : St) (i : Nat) :
    ((failRun r d fuel).invLog.length ≤ r + 1 ∧
      (failRun r d fuel).events.all (fun ev => ev == Ev.lazyError 0 (r + 1)) = true) ∧
    (((mapGet st.loadAttempts (attemptKey (findElem st i))).getD 0 < o.retryAttempts →
        (handleLoadError o st i).timers = st.timers ++
          [(st.now + o.retryDelay *
            ((mapGet st.loadAttempts (attemptKey (findElem st i))).getD 0 + 1), i)] ∧
        (handleLoadError o st i).loadAttempts = mapSet st.loadAttempts
          (attemptKey (findElem st i))
          ((mapGet st.loadAttempts (attemptKey (findElem st i))).getD 0 + 1) ∧
        (handleLoadError o st i).events = st.events) ∧
      (¬ (mapGet st.loadAttempts (attemptKey (findElem st i))).getD 0 < o.retryAttempts →
        (handleLoadError o st i).timers = st.timers ∧
        (handleLoadError o st i).events = st.events ++
          [Ev.lazyError i
            ((mapGet st.loadAttempts (attemptKey (findElem st i))).getD 0 + 1)])) ∧
    (defaultFailRun.invLog.length = 3 ∧
      defaultFailRun.events =
        [Ev.lazyError 0 3, Ev.lazyError 0 3, Ev.lazyError 0 3, Ev.lazyError 0 3] ∧
      (findElem defaultFailRun 0).classes = ["lazy-error"]) := by
  have hinit : invA r 0 failInit :=
    ⟨⟨["lazy-loading"], rfl⟩, rfl, rfl, Nat.zero_le r, rfl⟩
  have h1 : invA r 1 (loadElement (failOpts r d) false injEmpty failInit 0) :=
    loadElement_invA r d 0 failInit hinit
  have h2 := runTimers_invA r d fuel _ h1
  obtain ⟨_, _, hsum, hle, hev⟩ := h2
  refine ⟨⟨?_, ?_⟩, ⟨?_, ?_⟩, by decide, by decide, by decide⟩
  · unfold failRun
    omega
  · unfold failRun
    exact hev
  · intro h
    rw [handleLoadError_retry o st i h]
    exact ⟨rfl, rfl, rfl⟩
  · intro h
    exact ⟨handleLoadError_terminal_timers o st i h,
      handleLoadError_terminal_events o st i h⟩

/-- C1 witness: the amended handler dichotomy exercised on both sides,
at the shared-key terminal state and at the fresh pending state. -/
theorem c1_loader_invocation_amended_witness :
    (¬ (mapGet stShared.loadAttempts (attemptKey (findElem stShared 1))).getD 0 <
        defaultOptions.retryAttempts ∧
      (handleLoadError defaultOptions stShared 1).timers = stShared.timers) ∧
    ((mapGet stPending.loadAttempts (attemptKey (findElem stPending 0))).getD 0 <
        defaultOptions.retryAttempts ∧
      (handleLoadError defaultOptions stPending 0).events = stPending.events) :=
  ⟨⟨by decide,
    ((c1_loader_invocation_amended 2 1000 5 defaultOptions stShared 1).2.1.2
      (by decide)).1⟩,
   ⟨by decide,
    ((c1_loader_invocation_amended 2 1000 5 defaultOptions stPending 0).2.1.1
      (by decide)).2.2⟩⟩

/-- C4 counterexample: with retryAttempts = 2 and retryDelay = 1000 the
three Loader invocations of the failing element happen at 0, 1000 and
2000 ms; the 3rd invocation therefore comes only 1000 ms after the
failure of the 2nd invocation (failures are immediate here), not the
claimed 2000 ms or more, because both retries were already scheduled by
the two error-handler runs of the first failure. -/
theorem c4_linear_backoff_cex :
    defaultFailRun.invLog = [(0, 0), (1000, 0), (2000, 0)] ∧
    ((defaultFailRun.invLog.get? 2).getD (0, 0)).1 -
        ((defaultFailRun.invLog.get? 1).getD (0, 0)).1 = 1000 ∧
    ¬ ((defaultFailRun.invLog.get? 2).getD (0, 0)).1 -
        ((defaultFailRun.invLog.get? 1).getD (0, 0)).1 ≥ 2000 := by
  refine ⟨by decide, by decide, by decide⟩

/-- C4 amended: whenever a load fails with the recorded attempt count
below retryAttempts, the handler increments the counter and schedules
exactly one retry after retryDelay * (attempts + 1) ms (linear
backoff); in the default scenario this makes the three invocations land
at 0, 1000 and 2000 ms measured from the first failure, both retries
being scheduled by the doubled error handling of that first failure. -/
theorem c4_linear_backoff_amended (o : Options) (st : St) (i : Nat)
    (h : (mapGet st.loadAttempts (attemptKey (findElem st i))).getD 0 < o.retryAttempts) :
    (handleLoadError o st i).timers = st.timers ++
      [(st.now + o.retryDelay *
        ((mapGet st.loadAttempts (attemptKey (findElem st i))).getD 0 + 1), i)] ∧
    (handleLoadError o st i).loadAttempts = mapSet st.loadAttempts
      (attemptKey (findElem st i))
      ((mapGet st.loadAttempts (attemptKey (findElem st i))).getD 0 + 1) ∧
    defaultFailRun.invLog = [(0, 0), (1000, 0), (2000, 0)] := by
  rw [handleLoadError_retry o st i h]
  exact ⟨rfl, rfl, by decide⟩

/-- C4 witness: the amended backoff law applied to the first failure of
the scenario image schedules the retry at 1000 ms. -/
theorem c4_linear_backoff_amended_witness :
    (mapGet failInit.loadAttempts (attemptKey (findElem failInit 0))).getD 0 <
      (failOpts 2 1000).retryAttempts ∧
    (handleLoadError (failOpts 2 1000) failInit 0).timers = [(1000, 0)] := by
  refine ⟨by decide, ?_⟩
  rw [(c4_linear_backoff_amended (failOpts 2 1000) failInit 0 (by decide)).1]
  decide

/-- loadImage rejects without running the error handler when neither
data-src nor src holds a truthy URL. -/
theorem loadImage_nopayload (o : Options) (net : Bool) (st : St) (i : Nat)
    (hsrc : truthy (findElem st i).src = false)
    (hds : truthy (findElem st i).dataSrc = false) :
    loadImage o net st i = (st, false) := by
  have hds2 : ¬ truthy (findElem st i).dataSrc = true := by
    rw [hds]
    exact Bool.false_ne_true
  have hj : truthy (jsOr (findElem st i).dataSrc (findElem st i).src) = false := by
    unfold jsOr
    rw [if_neg hds2]
    exact hsrc
  unfold loadImage
  dsimp only
  rw [hj]
  rfl

/-- An IMG with no truthy payload: the rejection propagates to the
catch of loadElement, which runs the error handler once. -/
theorem loadElement_img_nopayload (o : Options) (net : Bool) (inj : Nat → List Nat)
    (st : St) (i : Nat)
    (himg : ((findElem st i).tag == "IMG") = true)
    (hsrc : truthy (findElem st i).src = false)
    (hds : truthy (findElem st i).dataSrc = false) :
    loadElement o net inj st i =
      handleLoadError o { st with invLog := st.invLog ++ [(st.now, i)] } i := by
  unfold loadElement
  dsimp only
  rw [show findElem { st with invLog := st.invLog ++ [(st.now, i)] } i = findElem st i
    from rfl]
  rw [if_pos himg,
    loadImage_nopayload o net { st with invLog := st.invLog ++ [(st.now, i)] } i hsrc hds]
  rfl

/-- A content element whose data-lazy is absent or empty is marked
loaded right away (the promise resolves without any fetch). -/
theorem loadContent_nourl (o : Options) (net : Bool) (inj : Nat → List Nat)
    (st : St) (i : Nat) (h : truthy (findElem st i).dataLazy = false) :
    loadContent o net inj st i = (onElementLoaded o st i, true) := by
  unfold loadContent
  dsimp only
  rw [h]
  rfl

/-- loadElement does nothing at all for a non-image element with no
truthy data-bg and no truthy data-lazy. -/
theorem loadElement_skip (o : Options) (net : Bool) (inj : Nat → List Nat)
    (st : St) (i : Nat)
    (himg : ((findElem st i).tag == "IMG") = false)
    (hbg : truthy (findElem st i).dataBg = false)
    (hdl : truthy (findElem st i).dataLazy = false) :
    loadElement o net inj st i = { st with invLog := st.invLog ++ [(st.now, i)] } := by
  unfold loadElement
  dsimp only
  rw [show findElem { st with invLog := st.invLog ++ [(st.now, i)] } i = findElem st i
    from rfl]
  rw [if_neg (by rw [himg]; exact Bool.false_ne_true),
    if_neg (by rw [hbg]; exact Bool.false_ne_true),
    if_neg (by rw [hdl]; exact Bool.false_ne_true)]

/-- C2 counterexample: an image the classifier matches (data-src
attribute present but empty, src empty) has no loadable payload, yet
its first load failure schedules a retry timer at 1000 ms, bumps the
attempt counter, and leaves the element without the error marker —
the failure is not an immediate terminal one. -/
theorem c2_missing_payload_cex :
    matchesImageSelector imgNoPayload = true ∧
    truthy (jsOr imgNoPayload.dataSrc imgNoPayload.src) = false ∧
    stMissingAfter.timers = [(1000, 0)] ∧
    (findElem stMissingAfter 0).classes.contains defaultOptions.errorClass = false ∧
    stMissingAfter.loadAttempts = [(none, 1)] := by
  refine ⟨by decide, by decide, by decide, by decide, by decide⟩

/-- C2 amended: a missing payload is not an immediate terminal failure.
An IMG with no truthy src or data-src rejects, the catch of loadElement
runs the retry policy, and while the counter is below the bound a retry
is scheduled (delay retryDelay * (attempts + 1)) with the document and
events untouched — the element is errored only after the usual
exhaustion.  A content element with a falsy data-lazy is immediately
marked loaded by loadContent (no retry, no error), and loadElement
skips a non-image element carrying neither a truthy data-bg nor a
truthy data-lazy entirely. -/
theorem c2_missing_payload_amended (o : Options) (net : Bool) (inj : Nat → List Nat)
    (st : St) (i : Nat)
    (himg : ((findElem st i).tag == "IMG") = true)
    (hsrc : truthy (findElem st i).src = false)
    (hds : truthy (findElem st i).dataSrc = false)
    (ha : (mapGet st.loadAttempts (attemptKey (findElem st i))).getD 0 < o.retryAttempts) :
    (loadElement o net inj st i).timers = st.timers ++
      [(st.now + o.retryDelay *
        ((mapGet st.loadAttempts (attemptKey (findElem st i))).getD 0 + 1), i)] ∧
    (loadElement o net inj st i).doc = st.doc ∧
    (loadElement o net inj st i).events = st.events ∧
    (∀ (st2 : St) (j : Nat), truthy (findElem st2 j).dataLazy = false →
      loadContent o net inj st2 j = (onElementLoaded o st2 j, true)) ∧
    (∀ (st2 : St) (j : Nat), ((findElem st2 j).tag == "IMG") = false →
      truthy (findElem st2 j).dataBg = false →
      truthy (findElem st2 j).dataLazy = false →
      loadElement o net inj st2 j =
        { st2 with invLog := st2.invLog ++ [(st2.now, j)] }) := by
  rw [loadElement_img_nopayload o net inj st i himg hsrc hds,
    handleLoadError_retry o { st with invLog := st.invLog ++ [(st.now, i)] } i ha]
  exact ⟨rfl, rfl, rfl, fun st2 j h => loadContent_nourl o net inj st2 j h,
    fun st2 j h1 h2 h3 => loadElement_skip o net inj st2 j h1 h2 h3⟩

/-- C2 witness: the amended statement applied to the concrete
payload-less image schedules the 1000 ms retry. -/
theorem c2_missing_payload_amended_witness :
    ((findElem stMissing 0).tag == "IMG") = true ∧
    truthy (findElem stMissing 0).src = false ∧
    truthy (findElem stMissing 0).dataSrc = false ∧
    (mapGet stMissing.loadAttempts (attemptKey (findElem stMissing 0))).getD 0 <
      defaultOptions.retryAttempts ∧
    (loadElement defaultOptions false injEmpty stMissing 0).timers = [(1000, 0)] := by
  refine ⟨by decide, by decide, by decide, by decide, ?_⟩
  rw [(c2_missing_payload_amended defaultOptions false injEmpty stMissing 0 (by decide)
    (by decide) (by decide) (by decide)).1]
  decide

/-- C6: over any sequence of observation batches the visibility
primitive could deliver (each record targets a currently registered
element and a batch carries at most one record per target), the
intersection handler invokes the Loader at most once per registration:
if element i is never re-registered by fragment injection and has not
been invoked before, it is invoked at most once across the whole run. -/
theorem c6_at_most_once_trigger (o : Options) (net : Nat → Bool) (inj : Nat → List Nat)
    (st : St) (bs : List (List Entry)) (i : Nat)
    (hseq : validSeqB o net inj st bs = true)
    (hinj : ∀ j, (inj j).contains i = false)
    (h0 : invCount st i = 0) :
    invCount (runBatches o net inj st bs) i ≤ 1 := by
  have h := runBatches_measure o net inj i hinj bs st hseq
  have h1 := obsInd_le_one st i
  omega

/-- C6 witness: one registered element, one intersecting batch followed
by an empty batch, never invoked more than once. -/
theorem c6_at_most_once_trigger_witness :
    validSeqB defaultOptions (fun _ => false) injEmpty failInit
      [[⟨0, true⟩], []] = true ∧
    invCount failInit 0 = 0 ∧
    invCount (runBatches defaultOptions (fun _ => false) injEmpty failInit
      [[⟨0, true⟩], []]) 0 ≤ 1 := by
  refine ⟨by decide, by decide, ?_⟩
  exact c6_at_most_once_trigger defaultOptions (fun _ => false) injEmpty failInit
    [[⟨0, true⟩], []] 0 (by decide) (fun _ => rfl) (by decide)

/-! ### Marker-class computations -/

theorem findElem_doc_congr (s t : St) (h : s.doc = t.doc) (i : Nat) :
    findElem s i = findElem t i := by
  unfold findElem
  rw [h]

theorem findElem_updateElem_self (st : St) (i : Nat) (f : Elem → Elem)
    (hdoc : (st.doc.find? (fun p => p.1 == i)).isSome = true) :
    findElem (updateElem st i f) i = f (findElem st i) := by
  unfold updateElem
  exact findElem_setElem_self st i _ hdoc

theorem updateElem_find_isSome (st : St) (i j : Nat) (f : Elem → Elem) :
    ((updateElem st i f).doc.find? (fun p => p.1 == j)).isSome =
      (st.doc.find? (fun p => p.1 == j)).isSome := by
  unfold updateElem
  exact setElem_find_isSome st i j _

theorem findElem_set_events (u : St) (evs : List Ev) (i : Nat) :
    findElem { u with events := evs } i = findElem u i := rfl

theorem findElem_onElementLoaded (o : Options) (st : St) (i : Nat)
    (hdoc : (st.doc.find? (fun p => p.1 == i)).isSome = true) :
    findElem (onElementLoaded o st i) i =
      addClass o.loadedClass (removeClass o.loadingClass (findElem st i)) := by
  unfold onElementLoaded
  dsimp only
  rw [findElem_set_events]
  exact findElem_updateElem_self st i _ hdoc

/-- The element state left by the terminal branch of the error handler:
error marker swapped in for the loading marker, the placeholder URL
substituted when one is configured on an image. -/
theorem hLE_terminal_findElem (o : Options) (st : St) (i : Nat)
    (hdoc : (st.doc.find? (fun p => p.1 == i)).isSome = true)
    (hcond : ¬ (mapGet st.loadAttempts (attemptKey (findElem st i))).getD 0 <
      o.retryAttempts) :
    findElem (handleLoadError o st i) i =
      (if ((findElem st i).tag == "IMG" && truthy (findElem st i).dataPlaceholder) = true
       then { addClass o.errorClass (removeClass o.loadingClass (findElem st i)) with
                src := (findElem st i).dataPlaceholder }
       else addClass o.errorClass (removeClass o.loadingClass (findElem st i))) := by
  simp only [handleLoadError]
  rw [if_neg hcond]
  split
  · rename_i hph
    have h1 : findElem (updateElem st i (fun e2 => addClass o.errorClass
        (removeClass o.loadingClass e2))) i =
        addClass o.errorClass (removeClass o.loadingClass (findElem st i)) :=
      findElem_updateElem_self st i _ hdoc
    have h2 : findElem (updateElem (updateElem st i (fun e2 => addClass o.errorClass
        (removeClass o.loadingClass e2))) i
        (fun e2 => { e2 with src := (findElem st i).dataPlaceholder })) i =
        { addClass o.errorClass (removeClass o.loadingClass (findElem st i)) with
          src := (findElem st i).dataPlaceholder } := by
      rw [findElem_updateElem_self _ i _ (by rw [updateElem_find_isSome]; exact hdoc), h1]
    rw [findElem_set_events]
    exact h2
  · rw [findElem_set_events]
    exact findElem_updateElem_self st i _ hdoc

theorem markerList_classes (o : Options) (e1 e2 : Elem) (h : e1.classes = e2.classes) :
    markerList o e1 = markerList o e2 := by
  unfold markerList
  rw [h]

theorem filter_swap {α : Type} (p q : α → Bool) (l : List α) :
    (l.filter p).filter q = (l.filter q).filter p := by
  rw [List.filter_filter, List.filter_filter]
  exact List.filter_congr (fun a _ => by rw [Bool.and_comm])

theorem not_contains_of_filter_nil {α : Type} [BEq α] [LawfulBEq α]
    (l : List α) (p : α → Bool) (a : α) (hp : p a = true) (h : l.filter p = []) :
    l.contains a = false := by
  rw [Bool.eq_false_iff]
  intro hc
  have hm := (contains_iff _ _).1 hc
  have hin : a ∈ l.filter p := List.mem_filter.2 ⟨hm, hp⟩
  rw [h] at hin
  cases hin

/-- Swapping the loading marker for a marker c on an element that
carries at most the loading marker yields exactly the marker c. -/
theorem markerList_swap_marker (e : Elem) (c : String)
    (hc : (c == defaultOptions.loadingClass || c == defaultOptions.loadedClass ||
      c == defaultOptions.errorClass) = true)
    (hm : markerList defaultOptions e = [] ∨
      markerList defaultOptions e = [defaultOptions.loadingClass]) :
    markerList defaultOptions
      (addClass c (removeClass defaultOptions.loadingClass e)) = [c] := by
  have hrem : markerList defaultOptions (removeClass defaultOptions.loadingClass e) = [] := by
    unfold markerList removeClass
    dsimp only
    rw [filter_swap]
    rcases hm with hm | hm
    · unfold markerList at hm
      rw [hm]
      rfl
    · unfold markerList at hm
      rw [hm]
      rfl
  have hnc : (removeClass defaultOptions.loadingClass e).classes.contains c = false := by
    unfold markerList at hrem
    exact not_contains_of_filter_nil _ _ c hc hrem
  unfold addClass
  rw [if_neg (by rw [hnc]; exact Bool.false_ne_true)]
  unfold markerList at hrem ⊢
  dsimp only
  rw [List.filter_append, hrem, List.nil_append]
  simp [hc]

/-- C5 counterexample: an element that reached terminal failure keeps
its data-src payload, so refresh() re-collects it and registers it
again, adding the loading marker without clearing the error marker:
the element then carries two lifecycle marker classes at once. -/
theorem c5_marker_exclusivity_cex :
    (findElem stErrored 0).classes = ["lazy-error"] ∧
    markerList defaultOptions (findElem stRefreshed 0) =
      ["lazy-error", "lazy-loading"] := by
  refine ⟨by decide, by decide⟩

/-- C5 amended: applied to an element carrying at most the loading
marker, each state-setting operation leaves exactly one marker  —
successful load leaves only loaded, terminal failure leaves only
error, and registration of an unmarked element leaves only loading.
Operations never clear a marker set earlier, so re-registration after
a terminal failure (refresh or fragment re-classification) stacks the
loading marker next to the old one. -/
theorem c5_marker_exclusivity_amended (st : St) (i : Nat)
    (hdoc : (st.doc.find? (fun p => p.1 == i)).isSome = true)
    (hm : markerList defaultOptions (findElem st i) = [] ∨
      markerList defaultOptions (findElem st i) = [defaultOptions.loadingClass]) :
    markerList defaultOptions (findElem (onElementLoaded defaultOptions st i) i) =
      [defaultOptions.loadedClass] ∧
    (¬ (mapGet st.loadAttempts (attemptKey (findElem st i))).getD 0 <
        defaultOptions.retryAttempts →
      markerList defaultOptions (findElem (handleLoadError defaultOptions st i) i) =
        [defaultOptions.errorClass]) ∧
    (markerList defaultOptions (findElem st i) = [] →
      markerList defaultOptions
        (addClass defaultOptions.loadingClass (findElem st i)) =
        [defaultOptions.loadingClass]) := by
  refine ⟨?_, ?_, ?_⟩
  · rw [findElem_onElementLoaded defaultOptions st i hdoc]
    exact markerList_swap_marker _ _ (by decide) hm
  · intro hcond
    rw [hLE_terminal_findElem defaultOptions st i hdoc hcond]
    split
    · show markerList defaultOptions (addClass defaultOptions.errorClass
        (removeClass defaultOptions.loadingClass (findElem st i))) =
        [defaultOptions.errorClass]
      exact markerList_swap_marker _ _ (by decide) hm
    · exact markerList_swap_marker _ _ (by decide) hm
  · intro hnil
    have hnil2 : (findElem st i).classes.filter
        (fun c => c == defaultOptions.loadingClass || c == defaultOptions.loadedClass ||
          c == defaultOptions.errorClass) = [] := hnil
    have hnc : (findElem st i).classes.contains defaultOptions.loadingClass = false :=
      not_contains_of_filter_nil _ _ _ (by decide) hnil2
    unfold addClass
    rw [if_neg (by rw [hnc]; exact Bool.false_ne_true)]
    unfold markerList
    dsimp only
    rw [List.filter_append, hnil2, List.nil_append]
    decide

/-- C5 witness: the amended statement applied to a freshly registered
image turns the loading marker into exactly the loaded marker. -/
theorem c5_marker_exclusivity_amended_witness :
    (stPending.doc.find? (fun p => p.1 == 0)).isSome = true ∧
    markerList defaultOptions (findElem stPending 0) = [defaultOptions.loadingClass] ∧
    markerList defaultOptions (findElem (onElementLoaded defaultOptions stPending 0) 0) =
      [defaultOptions.loadedClass] := by
  refine ⟨by decide, by decide, ?_⟩
  exact (c5_marker_exclusivity_amended stPending 0 (by decide) (Or.inr (by decide))).1

/-! ### Helpers for the shared-key claim -/

theorem addClass_src (c : String) (e : Elem) : (addClass c e).src = e.src := by
  unfold addClass
  split <;> rfl

theorem addClass_dataSrc (c : String) (e : Elem) : (addClass c e).dataSrc = e.dataSrc := by
  unfold addClass
  split <;> rfl

theorem addClass_dataBg (c : String) (e : Elem) : (addClass c e).dataBg = e.dataBg := by
  unfold addClass
  split <;> rfl

theorem addClass_tag (c : String) (e : Elem) : (addClass c e).tag = e.tag := by
  unfold addClass
  split <;> rfl

theorem contains_addClass_self (c : String) (e : Elem) :
    (addClass c e).classes.contains c = true := by
  unfold addClass
  split
  · rename_i h
    exact h
  · dsimp only
    rw [contains_append]
    simp [List.contains]

theorem attemptKey_congr (e1 e2 : Elem) (h1 : e1.src = e2.src)
    (h2 : e1.dataSrc = e2.dataSrc) (h3 : e1.dataBg = e2.dataBg) :
    attemptKey e1 = attemptKey e2 := by
  unfold attemptKey
  rw [h1, h2, h3]

theorem handleLoadError_find_isSome (o : Options) (st : St) (i j : Nat) :
    ((handleLoadError o st i).doc.find? (fun p => p.1 == j)).isSome =
      (st.doc.find? (fun p => p.1 == j)).isSome := by
  simp only [handleLoadError]
  split
  · rfl
  · split
    · dsimp only
      rw [updateElem_find_isSome, updateElem_find_isSome]
    · dsimp only
      rw [updateElem_find_isSome]

/-- loadContent with a truthy URL and a failing fetch: the error
handler runs inside the promise chain and the promise rejects. -/
theorem loadContent_fail (o : Options) (inj : Nat → List Nat) (st : St) (i : Nat)
    (hdl : truthy (findElem st i).dataLazy = true) :
    loadContent o false inj st i = (handleLoadError o st i, false) := by
  unfold loadContent
  dsimp only
  rw [hdl]
  rfl

/-- A failing content load through loadElement runs the error handler
twice: once in the fetch catch, once in the catch of loadElement. -/
theorem loadElement_content_fail (o : Options) (inj : Nat → List Nat) (st : St) (i : Nat)
    (htag : ((findElem st i).tag == "IMG") = false)
    (hbgf : truthy (findElem st i).dataBg = false)
    (hdl : truthy (findElem st i).dataLazy = true) :
    loadElement o false inj st i =
      handleLoadError o (handleLoadError o
        { st with invLog := st.invLog ++ [(st.now, i)] } i) i := by
  unfold loadElement
  dsimp only
  rw [show findElem { st with invLog := st.invLog ++ [(st.now, i)] } i = findElem st i
    from rfl]
  rw [if_neg (by rw [htag]; exact Bool.false_ne_true),
    if_neg (by rw [hbgf]; exact Bool.false_ne_true),
    if_pos hdl,
    loadContent_fail o inj { st with invLog := st.invLog ++ [(st.now, i)] } i hdl]
  rfl

/-- C10: the attempt counter is keyed by the payload URL — the key
reads only src, data-src and data-bg, so elements with the same payload
share one counter, and a content element with none of the three maps to
the undefined key shared by all such content elements.  Once the
counter of the undefined key has reached retryAttempts, a failure of
any element with that key is handled terminally: no retry scheduled, no
counter change, one lazyError per handler run.  On the concrete shared
state (counter for the undefined key already at 2, raised by other
content elements), the failing load of content element 1 is immediately
terminal: error marker set, two lazyError notifications with
attempts = 3, no timer scheduled, counter untouched. -/
theorem c10_shared_counter_key (o : Options) :
    (∀ e1 e2 : Elem, e1.src = e2.src → e1.dataSrc = e2.dataSrc → e1.dataBg = e2.dataBg →
      attemptKey e1 = attemptKey e2) ∧
    (∀ e : Elem, e.src = none → e.dataSrc = none → e.dataBg = none →
      attemptKey e = none) ∧
    (∀ (st2 : St) (j : Nat), attemptKey (findElem st2 j) = none →
      ¬ (mapGet st2.loadAttempts none).getD 0 < o.retryAttempts →
      (handleLoadError o st2 j).timers = st2.timers ∧
      (handleLoadError o st2 j).loadAttempts = st2.loadAttempts ∧
      (handleLoadError o st2 j).events = st2.events ++
        [Ev.lazyError j ((mapGet st2.loadAttempts none).getD 0 + 1)]) ∧
    ((loadElement defaultOptions false injEmpty stShared 1).timers = [] ∧
      (loadElement defaultOptions false injEmpty stShared 1).loadAttempts = [(none, 2)] ∧
      (loadElement defaultOptions false injEmpty stShared 1).events =
        [Ev.lazyError 1 3, Ev.lazyError 1 3] ∧
      (findElem (loadElement defaultOptions false injEmpty stShared 1) 1).classes.contains
        defaultOptions.errorClass = true) := by
  refine ⟨?_, ?_, ?_, by decide, by decide, by decide, by decide⟩
  · intro e1 e2 h1 h2 h3
    exact attemptKey_congr e1 e2 h1 h2 h3
  · intro e h1 h2 h3
    unfold attemptKey
    rw [h1, h2, h3]
    rfl
  · intro st2 j hk hge
    have hcond : ¬ (mapGet st2.loadAttempts (attemptKey (findElem st2 j))).getD 0 <
        o.retryAttempts := by
      rw [hk]
      exact hge
    refine ⟨handleLoadError_terminal_timers o st2 j hcond,
      handleLoadError_terminal_loadAttempts o st2 j hcond, ?_⟩
    rw [handleLoadError_terminal_events o st2 j hcond, hk]

/-- C10 witness: the key law applied to the concrete content element,
and its terminal handling on the shared counter. -/
theorem c10_shared_counter_key_witness :
    attemptKey divLazyB = none ∧
    (handleLoadError defaultOptions stShared 1).timers = [] := by
  refine ⟨(c10_shared_counter_key defaultOptions).2.1 divLazyB rfl rfl rfl, ?_⟩
  rw [((c10_shared_counter_key defaultOptions).2.2.1 stShared 1 (by decide) (by decide)).1]
  rfl

/-! ### The successful image-load path -/

theorem addClass_dataSrcset (c : String) (e : Elem) :
    (addClass c e).dataSrcset = e.dataSrcset := by
  unfold addClass
  split <;> rfl

theorem addClass_dataSizes (c : String) (e : Elem) :
    (addClass c e).dataSizes = e.dataSizes := by
  unfold addClass
  split <;> rfl

theorem contains_removeClass_self (c : String) (e : Elem) :
    (removeClass c e).classes.contains c = false := by
  unfold removeClass
  exact contains_filter_false _ _ _ (by simp)

theorem contains_addClass_other (c d : String) (e : Elem) (hne : ¬ d = c)
    (h : e.classes.contains d = false) : (addClass c e).classes.contains d = false := by
  unfold addClass
  split
  · exact h
  · dsimp only
    rw [contains_append, h]
    simp [List.contains, hne]

theorem removeClass_eq_self (c : String) (e : Elem) (h : e.classes.contains c = false) :
    removeClass c e = e := by
  unfold removeClass
  have hf : e.classes.filter (fun x => !(x == c)) = e.classes := by
    apply List.filter_eq_self.2
    intro a ha
    have hac : ¬ a = c := by
      intro hh
      subst hh
      rw [(contains_iff _ _).2 ha] at h
      cases h
    simp [hac]
  rw [hf]

theorem addClass_eq_self (c : String) (e : Elem) (h : e.classes.contains c = true) :
    addClass c e = e := by
  unfold addClass
  rw [if_pos h]

theorem onElementLoaded_find_isSome (o : Options) (st : St) (i j : Nat) :
    ((onElementLoaded o st i).doc.find? (fun p => p.1 == j)).isSome =
      (st.doc.find? (fun p => p.1 == j)).isSome := by
  unfold onElementLoaded
  dsimp only
  rw [updateElem_find_isSome]

theorem addClass_srcset (c : String) (e : Elem) : (addClass c e).srcset = e.srcset := by
  unfold addClass
  split <;> rfl

theorem addClass_sizes (c : String) (e : Elem) : (addClass c e).sizes = e.sizes := by
  unfold addClass
  split <;> rfl

theorem truthy_none : truthy none = false := rfl

/-- After the payload-copy step no truthy pending data-src remains. -/
theorem resolveImg_dataSrc_falsy (e : Elem) : truthy (resolveImg e).dataSrc = false := by
  unfold resolveImg
  cases h1 : truthy e.dataSrc <;> cases h2 : truthy e.dataSrcset <;>
    cases h3 : truthy e.dataSizes <;> simp [h1, h2, h3, truthy_none]

/-- After the payload-copy step no truthy pending data-srcset remains. -/
theorem resolveImg_dataSrcset_falsy (e : Elem) :
    truthy (resolveImg e).dataSrcset = false := by
  unfold resolveImg
  cases h1 : truthy e.dataSrc <;> cases h2 : truthy e.dataSrcset <;>
    cases h3 : truthy e.dataSizes <;> simp [h1, h2, h3, truthy_none]

/-- After the payload-copy step no truthy pending data-sizes remains. -/
theorem resolveImg_dataSizes_falsy (e : Elem) :
    truthy (resolveImg e).dataSizes = false := by
  unfold resolveImg
  cases h1 : truthy e.dataSrc <;> cases h2 : truthy e.dataSrcset <;>
    cases h3 : truthy e.dataSizes <;> simp [h1, h2, h3, truthy_none]

theorem resolveImg_tag (e : Elem) : (resolveImg e).tag = e.tag := by
  unfold resolveImg
  cases h1 : truthy e.dataSrc <;> cases h2 : truthy e.dataSrcset <;>
    cases h3 : truthy e.dataSizes <;> simp [h1, h2, h3]

/-- A truthy pending data-src is copied onto src and deleted. -/
theorem resolveImg_src (e : Elem) (h : truthy e.dataSrc = true) :
    (resolveImg e).src = e.dataSrc ∧ (resolveImg e).dataSrc = none := by
  unfold resolveImg
  cases h2 : truthy e.dataSrcset <;> cases h3 : truthy e.dataSizes <;>
    simp [h, h2, h3]

/-- A truthy pending data-srcset is copied onto srcset and deleted. -/
theorem resolveImg_srcset (e : Elem) (h : truthy e.dataSrcset = true) :
    (resolveImg e).srcset = e.dataSrcset ∧ (resolveImg e).dataSrcset = none := by
  unfold resolveImg
  cases h1 : truthy e.dataSrc <;> cases h3 : truthy e.dataSizes <;>
    simp [h1, h, h3]

/-- A truthy pending data-sizes is copied onto sizes and deleted. -/
theorem resolveImg_sizes (e : Elem) (h : truthy e.dataSizes = true) :
    (resolveImg e).sizes = e.dataSizes ∧ (resolveImg e).dataSizes = none := by
  unfold resolveImg
  cases h1 : truthy e.dataSrc <;> cases h2 : truthy e.dataSrcset <;>
    simp [h1, h2, h]

/-- With no truthy pending payload the copy step changes nothing. -/
theorem resolveImg_id (e : Elem) (h1 : truthy e.dataSrc = false)
    (h2 : truthy e.dataSrcset = false) (h3 : truthy e.dataSizes = false) :
    resolveImg e = e := by
  unfold resolveImg
  simp [h1, h2, h3]

/-- Successful decode with any truthy payload URL: the element is
replaced by its payload-copied form, then onElementLoaded runs. -/
theorem loadImage_success_any (o : Options) (st : St) (i : Nat)
    (h : truthy (jsOr (findElem st i).dataSrc (findElem st i).src) = true) :
    loadImage o true st i =
      (onElementLoaded o (setElem st i (resolveImg (findElem st i))) i, true) := by
  unfold loadImage resolveImg
  simp [h]

theorem loadElement_img_success_any (o : Options) (inj : Nat → List Nat) (st : St) (i : Nat)
    (himg : ((findElem st i).tag == "IMG") = true)
    (h : truthy (jsOr (findElem st i).dataSrc (findElem st i).src) = true) :
    loadElement o true inj st i =
      onElementLoaded o (setElem { st with invLog := st.invLog ++ [(st.now, i)] } i
        (resolveImg (findElem st i))) i := by
  unfold loadElement
  dsimp only
  rw [show findElem { st with invLog := st.invLog ++ [(st.now, i)] } i = findElem st i
    from rfl]
  rw [if_pos himg,
    loadImage_success_any o { st with invLog := st.invLog ++ [(st.now, i)] } i h]
  rfl

theorem loadElement_img_success_elem_any (o : Options) (inj : Nat → List Nat) (st : St)
    (i : Nat) (hdoc : (st.doc.find? (fun p => p.1 == i)).isSome = true)
    (himg : ((findElem st i).tag == "IMG") = true)
    (h : truthy (jsOr (findElem st i).dataSrc (findElem st i).src) = true) :
    findElem (loadElement o true inj st i) i =
      addClass o.loadedClass (removeClass o.loadingClass
        (resolveImg (findElem st i))) := by
  rw [loadElement_img_success_any o inj st i himg h,
    findElem_onElementLoaded o _ i (by rw [setElem_find_isSome]; exact hdoc),
    findElem_setElem_self { st with invLog := st.invLog ++ [(st.now, i)] } i _ hdoc]

/-- Successful decode with a truthy pending data-src: the payload is
copied onto src, the pending attribute deleted, then onElementLoaded. -/
theorem loadImage_success (o : Options) (st : St) (i : Nat)
    (hds : truthy (findElem st i).dataSrc = true)
    (hss : truthy (findElem st i).dataSrcset = false)
    (hsz : truthy (findElem st i).dataSizes = false) :
    loadImage o true st i =
      (onElementLoaded o (setElem st i
        { findElem st i with src := (findElem st i).dataSrc, dataSrc := none }) i, true) := by
  have hj : jsOr (findElem st i).dataSrc (findElem st i).src = (findElem st i).dataSrc := by
    unfold jsOr
    rw [if_pos hds]
  unfold loadImage
  simp [hj, hds, hss, hsz]

/-- Successful decode with no pending data-src but a truthy live src
(an already-resolved element): nothing is copied, onElementLoaded runs
again on the unchanged element. -/
theorem loadImage_success_nods (o : Options) (st : St) (i : Nat)
    (hds : truthy (findElem st i).dataSrc = false)
    (hsrc : truthy (findElem st i).src = true)
    (hss : truthy (findElem st i).dataSrcset = false)
    (hsz : truthy (findElem st i).dataSizes = false) :
    loadImage o true st i = (onElementLoaded o (setElem st i (findElem st i)) i, true) := by
  have hj : jsOr (findElem st i).dataSrc (findElem st i).src = (findElem st i).src := by
    unfold jsOr
    rw [if_neg (by rw [hds]; exact Bool.false_ne_true)]
  unfold loadImage
  simp [hj, hsrc, hds, hss, hsz]

theorem loadElement_img_success (o : Options) (inj : Nat → List Nat) (st : St) (i : Nat)
    (himg : ((findElem st i).tag == "IMG") = true)
    (hds : truthy (findElem st i).dataSrc = true)
    (hss : truthy (findElem st i).dataSrcset = false)
    (hsz : truthy (findElem st i).dataSizes = false) :
    loadElement o true inj st i =
      onElementLoaded o (setElem { st with invLog := st.invLog ++ [(st.now, i)] } i
        { findElem st i with src := (findElem st i).dataSrc, dataSrc := none }) i := by
  unfold loadElement
  dsimp only
  rw [show findElem { st with invLog := st.invLog ++ [(st.now, i)] } i = findElem st i
    from rfl]
  rw [if_pos himg,
    loadImage_success o { st with invLog := st.invLog ++ [(st.now, i)] } i hds hss hsz]
  rfl

theorem loadElement_img_success_nods (o : Options) (inj : Nat → List Nat) (st : St) (i : Nat)
    (himg : ((findElem st i).tag == "IMG") = true)
    (hds : truthy (findElem st i).dataSrc = false)
    (hsrc : truthy (findElem st i).src = true)
    (hss : truthy (findElem st i).dataSrcset = false)
    (hsz : truthy (findElem st i).dataSizes = false) :
    loadElement o true inj st i =
      onElementLoaded o (setElem { st with invLog := st.invLog ++ [(st.now, i)] } i
        (findElem st i)) i := by
  unfold loadElement
  dsimp only
  rw [show findElem { st with invLog := st.invLog ++ [(st.now, i)] } i = findElem st i
    from rfl]
  rw [if_pos himg,
    loadImage_success_nods o { st with invLog := st.invLog ++ [(st.now, i)] } i hds hsrc
      hss hsz]
  rfl

theorem loadElement_img_success_elem (o : Options) (inj : Nat → List Nat) (st : St) (i : Nat)
    (hdoc : (st.doc.find? (fun p => p.1 == i)).isSome = true)
    (himg : ((findElem st i).tag == "IMG") = true)
    (hds : truthy (findElem st i).dataSrc = true)
    (hss : truthy (findElem st i).dataSrcset = false)
    (hsz : truthy (findElem st i).dataSizes = false) :
    findElem (loadElement o true inj st i) i =
      addClass o.loadedClass (removeClass o.loadingClass
        { findElem st i with src := (findElem st i).dataSrc, dataSrc := none }) := by
  rw [loadElement_img_success o inj st i himg hds hss hsz,
    findElem_onElementLoaded o _ i (by rw [setElem_find_isSome]; exact hdoc),
    findElem_setElem_self { st with invLog := st.invLog ++ [(st.now, i)] } i _ hdoc]

/-- C3 counterexample: a second successful load call on the resolved
element leaves the element record identical but dispatches another
lazyLoaded notification — it is not a no-op in the claimed sense. -/
theorem c3_second_load_not_noop_cex :
    findElem stLoadedTwice 0 = findElem stLoadedOnce 0 ∧
    stLoadedOnce.events = [Ev.lazyLoaded 0] ∧
    stLoadedTwice.events = [Ev.lazyLoaded 0, Ev.lazyLoaded 0] := by
  refine ⟨by decide, by decide, by decide⟩

/-- C3 amended: a successful image load copies every truthy pending
payload attribute (data-src, and when present data-srcset and
data-sizes) onto its live counterpart and deletes the pending
attribute, leaving no truthy pending payload, and never adds the
loading marker, so the element cannot re-enter loading through the
load path; a second successful load call leaves the element record
unchanged (no attribute, class or style state to reprocess) but
re-dispatches another lazyLoaded notification - the operation is
idempotent on the DOM state, not silent. -/
theorem c3_idempotent_payload_amended (o : Options) (inj : Nat → List Nat) (st : St) (i : Nat)
    (hdoc : (st.doc.find? (fun p => p.1 == i)).isSome = true)
    (himg : ((findElem st i).tag == "IMG") = true)
    (hds : truthy (findElem st i).dataSrc = true)
    (hne : ¬ o.loadedClass = o.loadingClass) :
    (findElem (loadElement o true inj st i) i).src = (findElem st i).dataSrc ∧
    (findElem (loadElement o true inj st i) i).dataSrc = none ∧
    (truthy (findElem st i).dataSrcset = true →
      (findElem (loadElement o true inj st i) i).srcset = (findElem st i).dataSrcset ∧
      (findElem (loadElement o true inj st i) i).dataSrcset = none) ∧
    (truthy (findElem st i).dataSizes = true →
      (findElem (loadElement o true inj st i) i).sizes = (findElem st i).dataSizes ∧
      (findElem (loadElement o true inj st i) i).dataSizes = none) ∧
    truthy (findElem (loadElement o true inj st i) i).dataSrcset = false ∧
    truthy (findElem (loadElement o true inj st i) i).dataSizes = false ∧
    (findElem (loadElement o true inj st i) i).classes.contains o.loadingClass = false ∧
    findElem (loadElement o true inj (loadElement o true inj st i) i) i =
      findElem (loadElement o true inj st i) i ∧
    (loadElement o true inj (loadElement o true inj st i) i).events =
      (loadElement o true inj st i).events ++ [Ev.lazyLoaded i] := by
  have hj : truthy (jsOr (findElem st i).dataSrc (findElem st i).src) = true := by
    unfold jsOr
    rw [if_pos hds]
    exact hds
  have hel1 := loadElement_img_success_elem_any o inj st i hdoc himg hj
  have h1 : (findElem (loadElement o true inj st i) i).src = (findElem st i).dataSrc := by
    rw [hel1, addClass_src]
    exact (resolveImg_src (findElem st i) hds).1
  have h2 : (findElem (loadElement o true inj st i) i).dataSrc = none := by
    rw [hel1, addClass_dataSrc]
    exact (resolveImg_src (findElem st i) hds).2
  have h3 : truthy (findElem st i).dataSrcset = true →
      (findElem (loadElement o true inj st i) i).srcset = (findElem st i).dataSrcset ∧
      (findElem (loadElement o true inj st i) i).dataSrcset = none := by
    intro hss
    constructor
    · rw [hel1, addClass_srcset]
      exact (resolveImg_srcset (findElem st i) hss).1
    · rw [hel1, addClass_dataSrcset]
      exact (resolveImg_srcset (findElem st i) hss).2
  have h4 : truthy (findElem st i).dataSizes = true →
      (findElem (loadElement o true inj st i) i).sizes = (findElem st i).dataSizes ∧
      (findElem (loadElement o true inj st i) i).dataSizes = none := by
    intro hsz
    constructor
    · rw [hel1, addClass_sizes]
      exact (resolveImg_sizes (findElem st i) hsz).1
    · rw [hel1, addClass_dataSizes]
      exact (resolveImg_sizes (findElem st i) hsz).2
  have h5 : truthy (findElem (loadElement o true inj st i) i).dataSrcset = false := by
    rw [hel1, addClass_dataSrcset]
    exact resolveImg_dataSrcset_falsy (findElem st i)
  have h6 : truthy (findElem (loadElement o true inj st i) i).dataSizes = false := by
    rw [hel1, addClass_dataSizes]
    exact resolveImg_dataSizes_falsy (findElem st i)
  have h7 : (findElem (loadElement o true inj st i) i).classes.contains
      o.loadingClass = false := by
    rw [hel1]
    exact contains_addClass_other o.loadedClass o.loadingClass _
      (fun hh => hne hh.symm) (contains_removeClass_self o.loadingClass _)
  have hdoc1 : ((loadElement o true inj st i).doc.find? (fun p => p.1 == i)).isSome =
      true := by
    rw [loadElement_img_success_any o inj st i himg hj,
      onElementLoaded_find_isSome, setElem_find_isSome]
    exact hdoc
  have himg1 : ((findElem (loadElement o true inj st i) i).tag == "IMG") = true := by
    rw [hel1, addClass_tag]
    show ((resolveImg (findElem st i)).tag == "IMG") = true
    rw [resolveImg_tag]
    exact himg
  have hds1 : truthy (findElem (loadElement o true inj st i) i).dataSrc = false := by
    rw [h2]
    rfl
  have hsrc1 : truthy (findElem (loadElement o true inj st i) i).src = true := by
    rw [h1]
    exact hds
  have hel2 : findElem (loadElement o true inj (loadElement o true inj st i) i) i =
      addClass o.loadedClass (removeClass o.loadingClass
        (findElem (loadElement o true inj st i) i)) := by
    rw [loadElement_img_success_nods o inj _ i himg1 hds1 hsrc1 h5 h6,
      findElem_onElementLoaded o _ i (by rw [setElem_find_isSome]; exact hdoc1),
      findElem_setElem_self { loadElement o true inj st i with
        invLog := (loadElement o true inj st i).invLog ++
          [((loadElement o true inj st i).now, i)] } i _ hdoc1]
  have hloaded : (findElem (loadElement o true inj st i) i).classes.contains
      o.loadedClass = true := by
    rw [hel1]
    exact contains_addClass_self o.loadedClass _
  have h8 : findElem (loadElement o true inj (loadElement o true inj st i) i) i =
      findElem (loadElement o true inj st i) i := by
    rw [hel2, removeClass_eq_self _ _ h7, addClass_eq_self _ _ hloaded]
  have h9 : (loadElement o true inj (loadElement o true inj st i) i).events =
      (loadElement o true inj st i).events ++ [Ev.lazyLoaded i] := by
    rw [loadElement_img_success_nods o inj _ i himg1 hds1 hsrc1 h5 h6]
    rfl
  exact ⟨h1, h2, h3, h4, h5, h6, h7, h8, h9⟩

/-- C3 witness: the amended statement applied to the concrete image
carrying the full pending payload; the srcset copy is exercised. -/
theorem c3_idempotent_payload_amended_witness :
    (stPendingFull.doc.find? (fun p => p.1 == 0)).isSome = true ∧
    truthy (findElem stPendingFull 0).dataSrc = true ∧
    truthy (findElem stPendingFull 0).dataSrcset = true ∧
    (findElem (loadElement defaultOptions true injEmpty stPendingFull 0) 0).srcset =
      (findElem stPendingFull 0).dataSrcset := by
  refine ⟨by decide, by decide, by decide, ?_⟩
  exact ((c3_idempotent_payload_amended defaultOptions injEmpty stPendingFull 0 (by decide)
    (by decide) (by decide) (by decide)).2.2.1 (by decide)).1

/-! ### The fallback path makes no observer registration -/

theorem ldFrame_conn {s t : St} (h : ldFrame s = ldFrame t) :
    s.observerConn = t.observerConn := by
  simp only [ldFrame, Prod.mk.injEq] at h
  exact h.1

theorem pncStep_noconn (o : Options) (acc : St × Bool) (i : Nat)
    (h : acc.1.observerConn = false) : (pncStep o acc i).1 = acc.1 := by
  unfold pncStep
  dsimp only
  split
  · split
    · rw [if_neg (by rw [h]; exact Bool.false_ne_true)]
    · rfl
  · rfl

theorem pnc_fold_noconn (o : Options) :
    ∀ (ids : List Nat) (acc : St × Bool), acc.1.observerConn = false →
      (ids.foldl (pncStep o) acc).1 = acc.1 := by
  intro ids
  induction ids with
  | nil => intro acc h; rfl
  | cons j tl ih =>
    intro acc h
    rw [List.foldl_cons, ih _ (by rw [pncStep_noconn o acc j h]; exact h),
      pncStep_noconn o acc j h]

theorem loadContent_noconn (o : Options) (net : Bool) (inj : Nat → List Nat)
    (st : St) (i : Nat) (h : st.observerConn = false) :
    ((loadContent o net inj st i).1).observed = st.observed ∧
    ((loadContent o net inj st i).1).observerConn = false := by
  have hpnc : (processNewContent o (setElem st i
      { findElem st i with dataLazy := none }) (inj i)).1 =
      setElem st i { findElem st i with dataLazy := none } :=
    pnc_fold_noconn o (inj i) _ (by rw [setElem_observerConn]; exact h)
  unfold loadContent
  dsimp only
  split
  · exact ⟨rfl, h⟩
  · split
    · split
      · constructor
        · rw [onElementLoaded_observed, hpnc, setElem_observed]
        · rw [onElementLoaded_observerConn, hpnc, setElem_observerConn]
          exact h
      · constructor
        · rw [handleLoadError_observed, hpnc, setElem_observed]
        · rw [handleLoadError_observerConn, hpnc, setElem_observerConn]
          exact h
    · constructor
      · rw [handleLoadError_observed]
      · rw [handleLoadError_observerConn]
        exact h

theorem laiImg_fold_frames (o : Options) (net : Nat → Bool) :
    ∀ (l : List Nat) (st : St),
      (l.foldl (laiImgStep o net) st).observed = st.observed ∧
      (l.foldl (laiImgStep o net) st).observerConn = st.observerConn := by
  intro l
  induction l with
  | nil => intro st; exact ⟨rfl, rfl⟩
  | cons j tl ih =>
    intro st
    rw [List.foldl_cons]
    refine ⟨?_, ?_⟩
    · rw [(ih _).1]
      exact ldFrame_observed (loadImage_ldFrame o (net j) st j)
    · rw [(ih _).2]
      exact ldFrame_conn (loadImage_ldFrame o (net j) st j)

theorem laiBg_fold_frames (o : Options) (net : Nat → Bool) :
    ∀ (l : List Nat) (st : St),
      (l.foldl (laiBgStep o net) st).observed = st.observed ∧
      (l.foldl (laiBgStep o net) st).observerConn = st.observerConn := by
  intro l
  induction l with
  | nil => intro st; exact ⟨rfl, rfl⟩
  | cons j tl ih =>
    intro st
    rw [List.foldl_cons]
    refine ⟨?_, ?_⟩
    · rw [(ih _).1]
      exact ldFrame_observed (loadBackground_ldFrame o (net j) st j)
    · rw [(ih _).2]
      exact ldFrame_conn (loadBackground_ldFrame o (net j) st j)

theorem laiContent_fold_noconn (o : Options) (net : Nat → Bool) (inj : Nat → List Nat) :
    ∀ (l : List Nat) (st : St), st.observerConn = false →
      (l.foldl (laiContentStep o net inj) st).observed = st.observed ∧
      (l.foldl (laiContentStep o net inj) st).observerConn = false := by
  intro l
  induction l with
  | nil => intro st h; exact ⟨rfl, h⟩
  | cons j tl ih =>
    intro st h
    rw [List.foldl_cons]
    obtain ⟨hobs, hconn⟩ := loadContent_noconn o (net j) inj st j h
    obtain ⟨hobs2, hconn2⟩ := ih (laiContentStep o net inj st j) hconn
    refine ⟨?_, hconn2⟩
    rw [hobs2]
    exact hobs

theorem loadAllImmediately_no_registration (o : Options) (net : Nat → Bool)
    (inj : Nat → List Nat) (st : St) (h : st.observerConn = false) :
    (loadAllImmediately o net inj st).observed = st.observed ∧
    (loadAllImmediately o net inj st).observerConn = false := by
  unfold loadAllImmediately
  dsimp only
  have hc2 : (((collectElements o st).images.foldl (laiImgStep o net)
      (collectElements o st)).backgrounds.foldl (laiBgStep o net)
      ((collectElements o st).images.foldl (laiImgStep o net)
        (collectElements o st))).observerConn = false := by
    rw [(laiBg_fold_frames o net _ _).2, (laiImg_fold_frames o net _ _).2]
    exact h
  refine ⟨?_, ?_⟩
  · rw [(laiContent_fold_noconn o net inj _ _ hc2).1, (laiBg_fold_frames o net _ _).1,
      (laiImg_fold_frames o net _ _).1]
    rfl
  · exact (laiContent_fold_noconn o net inj _ _ hc2).2

/-- C7 counterexample: with IntersectionObserver unavailable, a DIV whose
data-bg attribute is present but empty is classified as a background
element, init completes, yet the element ends with no marker class at
all - neither loaded nor errored - because the fallback swallows the
rejection of its payload-less load. -/
theorem c7_fallback_cex :
    stFallback.backgrounds = [0] ∧
    (init defaultOptions false (fun _ => true) injEmpty { doc := [(0, divEmptyBg)] }).2
      = true ∧
    (findElem stFallback 0).classes.contains defaultOptions.loadedClass = false ∧
    (findElem stFallback 0).classes.contains defaultOptions.errorClass = false ∧
    (findElem stFallback 0).classes = [] ∧
    stFallback.observed = [] := by decide

/-- C7 amended: with IntersectionObserver unavailable, init completes
without throwing and makes no observer registration for any options,
network, injection and unconnected starting state; on the mixed
document (all loads succeeding) every classified element with a truthy
payload and every content element ends loaded, while the image and the
background whose payload attribute is present but empty end with no
marker at all. -/
theorem c7_fallback_amended (o : Options) (net : Nat → Bool) (inj : Nat → List Nat)
    (st : St) (h : st.observerConn = false) :
    ((init o false net inj st).2 = true ∧
      (init o false net inj st).1.observed = st.observed ∧
      (init o false net inj st).1.observerConn = false) ∧
    (stMixedFallback.images = [0, 1] ∧ stMixedFallback.backgrounds = [2, 3] ∧
      stMixedFallback.content = [4, 5] ∧
      (findElem stMixedFallback 0).classes = ["lazy-loaded"] ∧
      (findElem stMixedFallback 1).classes = [] ∧
      (findElem stMixedFallback 2).classes = ["lazy-loaded"] ∧
      (findElem stMixedFallback 3).classes = [] ∧
      (findElem stMixedFallback 4).classes = ["lazy-loaded"] ∧
      (findElem stMixedFallback 5).classes = ["lazy-loaded"] ∧
      stMixedFallback.observed = []) := by
  refine ⟨⟨rfl, ?_, ?_⟩, by decide⟩
  · exact (loadAllImmediately_no_registration o net inj st h).1
  · exact (loadAllImmediately_no_registration o net inj st h).2

/-- C7 witness: the amended theorem applied to the concrete
single-element document, whose starting state has no connected
observer. -/
theorem c7_fallback_amended_witness :
    ({ doc := [(0, divEmptyBg)] } : St).observerConn = false ∧
    (init defaultOptions false (fun _ => true) injEmpty
      { doc := [(0, divEmptyBg)] }).2 = true :=
  ⟨rfl, (c7_fallback_amended defaultOptions (fun _ => true) injEmpty
    { doc := [(0, divEmptyBg)] } rfl).1.1⟩

end LazyVerify
